import Mathlib

/-!
go-filecoin: the VM message-passing boundary (`vm/vm.go`) and `types/uint64.go`.

A shallow embedding of `transfer`, `send` and `Send` from `vm/vm.go`, twice.

Over records (`transfer`, `send`, `Send`): the two `*types.Actor` arguments are
embedded as the two records they designate, taken to be two separate records,
also when the two addresses of the message are equal; a function that mutates
them returns the records as they are after the call.

Over pointers (`Mem.transfer`, `Mem.send`, `Mem.Send`): the two arguments are
pointers into a memory of actor records and may be one and the same pointer.
`Send_ptr_refines` shows that the embedding over records is the embedding over
pointers at two different pointers.

A `nil` pointer is `none`.
-/

namespace Filecoin

/-! ## Collaborating types (declared outside `vm/vm.go`) -/

/-- Modelled from the spec: `types.TokenAmount` is missing from the sources.  A
`*types.TokenAmount` is a nilable pointer to a signed arbitrary-precision
integer; `none` is the nil pointer. -/
abbrev TokenAmount := Option Int

namespace TokenAmount

/-- Modelled from the spec: the integer a `*types.TokenAmount` stands for; "a
nil/absent amount is semantically zero". -/
def toInt : TokenAmount → Int
  | none => 0
  | some v => v

/-- Modelled from the spec: `types.ZeroToken`, the shared explicit zero. -/
def ZeroToken : TokenAmount := some 0

/-- Modelled from the spec: `(*TokenAmount).IsNegative`, a total comparison
with nil read as zero. -/
def IsNegative (z : TokenAmount) : Bool := decide (toInt z < 0)

/-- Modelled from the spec: `(*TokenAmount).LessThan`, a total comparison with
nil read as zero. -/
def LessThan (z y : TokenAmount) : Bool := decide (toInt z < toInt y)

/-- Modelled from the spec: `(*TokenAmount).Add` never mutates its operands and
returns a new (non-nil) value. -/
def Add (z y : TokenAmount) : TokenAmount := some (toInt z + toInt y)

/-- Modelled from the spec: `(*TokenAmount).Sub` never mutates its operands and
returns a new (non-nil) value. -/
def Sub (z y : TokenAmount) : TokenAmount := some (toInt z - toInt y)

end TokenAmount

/-- Addresses of actors in the state tree (an opaque identifier). -/
abbrev Address := Nat

/-- Content identifiers of actor code (an opaque identifier). -/
abbrev Cid := Nat

/-- Byte strings; `none : Option Bytes` is Go's nil slice. -/
abbrev Bytes := List Nat

/-- Modelled from the spec: `types.Actor` is missing from the sources.  The
record has "exactly two fields relevant to this core": the code reference and
the nilable balance. -/
structure Actor where
  Code : Cid
  Balance : TokenAmount
deriving DecidableEq, Repr

/-- Modelled from the spec: `types.Message` is missing from the sources: the
two addresses, the method name (the empty string means "no dispatch") and the
nilable value. -/
structure Message where
  From : Address
  To : Address
  Method : String
  Value : TokenAmount
deriving DecidableEq, Repr

/-- Modelled from the spec: the package `vm/errors` is missing from the
sources.  A Go `error` is either an ordinary error carrying no VM
classification (what a collaborator such as the state tree returns), a revert
error (`errors.NewRevertError`, `errors.NewRevertErrorf`), or a fault error
wrapping a cause with a context (`errors.FaultErrorWrap`). -/
inductive GoError where
  | plain (msg : String)
  | revert (msg : String)
  | fault (cause : GoError) (context : String)
deriving DecidableEq, Repr

namespace errors

/-- Modelled from the spec: `errors.NewRevertError`. -/
def NewRevertError (msg : String) : GoError := GoError.revert msg

/-- Modelled from the spec: `errors.NewRevertErrorf` with the one format used
in `vm.go`, a prefix followed by `%s`. -/
def NewRevertErrorf (pre arg : String) : GoError := GoError.revert (pre ++ arg)

/-- Modelled from the spec: `errors.FaultErrorWrap`. -/
def FaultErrorWrap (err : GoError) (msg : String) : GoError := GoError.fault err msg

/-- Modelled from the spec: `errors.ShouldRevert`, the Revert tag. -/
def ShouldRevert : GoError → Bool
  | GoError.revert _ => true
  | _ => false

/-- Modelled from the spec: `errors.IsFault`, the Fault tag. -/
def IsFault : GoError → Bool
  | GoError.fault _ _ => true
  | _ => false

end errors

/-! ## `vm/vm.go` -/

/-- The error `ErrCannotTransferNegativeValue` of `vm.go`. -/
def ErrCannotTransferNegativeValue : GoError :=
  errors.NewRevertError "cannot transfer negative values"

/-- The error `ErrInsufficientBalance` of `vm.go`. -/
def ErrInsufficientBalance : GoError :=
  errors.NewRevertError "not enough balance"

/-- What a call of `transfer` leaves behind: the returned error (`none` is
nil) and the two records as they are after the call. -/
structure TransferResult where
  err : Option GoError
  fromActor : Actor
  toActor : Actor
deriving DecidableEq, Repr

/-- The function `transfer` of `vm.go`, run on two separate records; the case
of one record handed in twice is covered by `Mem.transfer`. -/
def transfer (fromActor toActor : Actor) (value : TokenAmount) : TransferResult :=
  if TokenAmount.IsNegative value then
    { err := some ErrCannotTransferNegativeValue, fromActor := fromActor, toActor := toActor }
  else if TokenAmount.LessThan fromActor.Balance value then
    { err := some ErrInsufficientBalance, fromActor := fromActor, toActor := toActor }
  else
    let toActor₁ : Actor :=
      if toActor.Balance = none then { toActor with Balance := TokenAmount.ZeroToken } else toActor
    let fromActor₁ : Actor := { fromActor with Balance := TokenAmount.Sub fromActor.Balance value }
    let toActor₂ : Actor := { toActor₁ with Balance := TokenAmount.Add toActor₁.Balance value }
    { err := none, fromActor := fromActor₁, toActor := toActor₂ }

/-- Modelled from the spec: the VM context (`NewVMContext` is missing from the
sources), "scoped to `(from, to, msg, tree)`".  It holds the pointers it was
built from, so what the dispatched method reads through it is the state of the
records and of the tree at the time of dispatch. -/
structure VMContext (σ : Type) where
  fromActor : Actor
  toActor : Actor
  message : Message
  state : σ

/-- What a dispatched method leaves behind: its three return values (bytes,
exit code, error) and the records and tree as the method left them. -/
structure Outcome (σ : Type) where
  ret : Option Bytes
  exitCode : Nat
  err : Option GoError
  fromActor : Actor
  toActor : Actor
  state : σ

/-- Modelled from the spec: an exported method, a callable on a VM context
(the actor code bodies are external to `vm.go`). -/
abbrev ExportedFunc (σ : Type) := VMContext σ → Outcome σ

/-- Modelled from the spec: the executable resolved for an actor's code:
`Exports()`, the set of method names, and the method-name-indexed dispatch
table that `actor.MakeTypedExport` (missing from the sources) looks up. -/
structure Executable (σ : Type) where
  Exports : List String
  MakeTypedExport : String → ExportedFunc σ

/-- Modelled from the spec: the interface `state.Tree` over a tree state `σ`.
`SetActor` mutates the tree and returns an error (`none` is nil);
`GetBuiltinActorCode` is the code resolver, a read; `GetActor` is the read
matching `SetActor`. -/
structure Tree (σ : Type) where
  GetActor : σ → Address → Except GoError Actor
  SetActor : σ → Address → Actor → Option GoError × σ
  GetBuiltinActorCode : σ → Cid → Except GoError (Executable σ)

/-- A tree stores what is written to it: reading an address after a successful
write gives the record written, and a successful write leaves every other
address as it was. -/
structure Tree.Lawful {σ : Type} (T : Tree σ) : Prop where
  get_set_same : ∀ (s s' : σ) (a : Address) (x : Actor),
    T.SetActor s a x = (none, s') → T.GetActor s' a = Except.ok x
  get_set_other : ∀ (s s' : σ) (a b : Address) (x : Actor),
    T.SetActor s a x = (none, s') → b ≠ a → T.GetActor s' b = T.GetActor s b

/-- The calls `send` makes to its collaborators, in the order it makes them (a
ghost log: `send` itself does not read it). -/
inductive Call where
  | transfer (fromActor toActor : Actor) (value : TokenAmount)
  | SetActor (addr : Address) (a : Actor)
  | GetBuiltinActorCode (code : Cid)
  | Dispatch (method : String)
deriving DecidableEq, Repr

/-- The struct `sendDeps` of `vm.go`: the injected transfer function. -/
structure sendDeps where
  transfer : Actor → Actor → TokenAmount → TransferResult

/-- What a call of `send` leaves behind: its three return values, the two
records and the tree as they are after the call, and the log of calls made. -/
structure SendResult (σ : Type) where
  ret : Option Bytes
  exitCode : Nat
  err : Option GoError
  fromActor : Actor
  toActor : Actor
  state : σ
  calls : List Call

/-- The value-transfer step of `send`, the block `if msg.Value != nil { ... }`:
the injected transfer runs on `(from, to, msg.Value)` when a value is present,
and nothing happens when it is nil. -/
def transferStep (deps : sendDeps) (fromActor toActor : Actor) (msg : Message) :
    TransferResult :=
  if msg.Value ≠ none then deps.transfer fromActor toActor msg.Value
  else { err := none, fromActor := fromActor, toActor := toActor }

/-- The calls logged by the value-transfer step of `send`. -/
def transferLog (fromActor toActor : Actor) (msg : Message) : List Call :=
  if msg.Value ≠ none then [Call.transfer fromActor toActor msg.Value] else []

/-- The function `send` of `vm.go`, run on two separate records; the case of
one record handed in twice is covered by `Mem.send`. -/
def send {σ : Type} (T : Tree σ) (deps : sendDeps) (fromActor toActor : Actor)
    (msg : Message) (st : σ) : SendResult σ :=
  let tr : TransferResult := transferStep deps fromActor toActor msg
  let log₀ : List Call := transferLog fromActor toActor msg
  match tr.err with
  | some err =>
    { ret := none, exitCode := 1, err := some err,
      fromActor := tr.fromActor, toActor := tr.toActor, state := st, calls := log₀ }
  | none =>
    -- save balance changes
    let log₁ := log₀ ++ [Call.SetActor msg.From tr.fromActor]
    match T.SetActor st msg.From tr.fromActor with
    | (some err, st₁) =>
      { ret := none, exitCode := 1,
        err := some (errors.FaultErrorWrap err "could not set from actor after send"),
        fromActor := tr.fromActor, toActor := tr.toActor, state := st₁, calls := log₁ }
    | (none, st₁) =>
      let log₂ := log₁ ++ [Call.SetActor msg.To tr.toActor]
      match T.SetActor st₁ msg.To tr.toActor with
      | (some err, st₂) =>
        { ret := none, exitCode := 1,
          err := some (errors.FaultErrorWrap err "could not set to actor after send"),
          fromActor := tr.fromActor, toActor := tr.toActor, state := st₂, calls := log₂ }
      | (none, st₂) =>
        if msg.Method = "" then
          -- if only tokens are transferred there is no need for a method
          { ret := none, exitCode := 0, err := none,
            fromActor := tr.fromActor, toActor := tr.toActor, state := st₂, calls := log₂ }
        else
          let log₃ := log₂ ++ [Call.GetBuiltinActorCode tr.toActor.Code]
          match T.GetBuiltinActorCode st₂ tr.toActor.Code with
          | Except.error err =>
            { ret := none, exitCode := 1,
              err := some (errors.FaultErrorWrap err "unable to load code for To actor"),
              fromActor := tr.fromActor, toActor := tr.toActor, state := st₂, calls := log₃ }
          | Except.ok toExecutable =>
            if ¬ (msg.Method ∈ toExecutable.Exports) then
              { ret := none, exitCode := 1,
                err := some (errors.NewRevertErrorf "missing export: " msg.Method),
                fromActor := tr.fromActor, toActor := tr.toActor, state := st₂, calls := log₃ }
            else
              let vmCtx : VMContext σ :=
                { fromActor := tr.fromActor, toActor := tr.toActor, message := msg, state := st₂ }
              let out := toExecutable.MakeTypedExport msg.Method vmCtx
              { ret := out.ret, exitCode := out.exitCode, err := out.err,
                fromActor := out.fromActor, toActor := out.toActor, state := out.state,
                calls := log₃ ++ [Call.Dispatch msg.Method] }

/-- The function `Send` of `vm.go`: `send` with the real `transfer`. -/
def Send {σ : Type} (T : Tree σ) (fromActor toActor : Actor) (msg : Message) (st : σ) :
    SendResult σ :=
  send T { transfer := transfer } fromActor toActor msg st

/-- An error carries exactly one of the two tags Revert and Fault. -/
def ExactlyOneTag (e : GoError) : Prop :=
  (errors.ShouldRevert e = true ∧ errors.IsFault e = false) ∨
  (errors.ShouldRevert e = false ∧ errors.IsFault e = true)

instance (e : GoError) : Decidable (ExactlyOneTag e) := by
  unfold ExactlyOneTag; infer_instance

/-! ## An in-memory state tree -/

/-- Modelled from the spec: a state tree held in memory, "the durable,
addressable store of all actor records": the records by address, and the
addresses at which the store refuses a write. -/
structure MemTree where
  actors : List (Address × Actor)
  broken : List Address
deriving DecidableEq, Repr

namespace MemTree

/-- Store a record at an address, replacing the record already there. -/
def put (a : Address) (x : Actor) : List (Address × Actor) → List (Address × Actor)
  | [] => [(a, x)]
  | (b, y) :: rest => if b = a then (a, x) :: rest else (b, y) :: put a x rest

/-- The record stored at an address, if any. -/
def find (a : Address) : List (Address × Actor) → Option Actor
  | [] => none
  | (b, y) :: rest => if b = a then some y else find a rest

/-- The in-memory tree as a `state.Tree`, over a given table of builtin actor
code. -/
def tree (code : Cid → Except GoError (Executable MemTree)) : Tree MemTree where
  GetActor := fun s a =>
    match find a s.actors with
    | some x => Except.ok x
    | none => Except.error (GoError.plain "actor not found")
  SetActor := fun s a x =>
    if a ∈ s.broken then (some (GoError.plain "store unavailable"), s)
    else (none, { s with actors := put a x s.actors })
  GetBuiltinActorCode := fun _ c => code c

/-- An actor method that fails with an ordinary Go error (one made with
`errors.New`, which carries neither the Revert nor the Fault tag) and touches
nothing.  `actor.MakeTypedExport` is missing from the sources and is taken to
hand back the method's results as they are, as `send` does with them. -/
def failingMethod : ExportedFunc MemTree := fun ctx =>
  { ret := none, exitCode := 1, err := some (GoError.plain "boom"),
    fromActor := ctx.fromActor, toActor := ctx.toActor, state := ctx.state }

/-- A code table in which every code reference resolves to one executable that
exports the single method `"fail"`, implemented by `failingMethod`. -/
def failingCode : Cid → Except GoError (Executable MemTree) :=
  fun _ => Except.ok { Exports := ["fail"], MakeTypedExport := fun _ => failingMethod }

/-- An actor method that rejects every message with a revert error and touches
nothing. -/
def rejectingMethod : ExportedFunc MemTree := fun ctx =>
  { ret := none, exitCode := 1, err := some (errors.NewRevertError "rejected"),
    fromActor := ctx.fromActor, toActor := ctx.toActor, state := ctx.state }

/-- A code table in which every code reference resolves to one executable that
exports the single method `"reject"`, implemented by `rejectingMethod`. -/
def rejectingCode : Cid → Except GoError (Executable MemTree) :=
  fun _ => Except.ok { Exports := ["reject"], MakeTypedExport := fun _ => rejectingMethod }

/-- A code table with no builtin actor code at all. -/
def noCode : Cid → Except GoError (Executable MemTree) :=
  fun _ => Except.error (GoError.plain "unknown actor code")

end MemTree

/-- The total of all balances stored in an in-memory tree, a nil balance
counting as zero. -/
def MemTree.supply : List (Address × Actor) → Int
  | [] => 0
  | (_, y) :: rest => TokenAmount.toInt y.Balance + MemTree.supply rest

/-- The balance stored at an address of an in-memory tree, as an integer (nil
read as zero); `none` when no record is stored there. -/
def MemTree.balanceAt (a : Address) (l : List (Address × Actor)) : Option Int :=
  (MemTree.find a l).map (fun x => TokenAmount.toInt x.Balance)

/-- An actor method that answers every message with the bytes `[42]` and
touches nothing. -/
def MemTree.answeringMethod : ExportedFunc MemTree := fun ctx =>
  { ret := some [42], exitCode := 0, err := none,
    fromActor := ctx.fromActor, toActor := ctx.toActor, state := ctx.state }

/-- A code table in which every code reference resolves to one executable that
exports the single method `"answer"`, implemented by `answeringMethod`. -/
def MemTree.answeringCode : Cid → Except GoError (Executable MemTree) :=
  fun _ => Except.ok { Exports := ["answer"], MakeTypedExport := fun _ => MemTree.answeringMethod }

/-! ## `types/uint64.go` and the codecs it calls -/

namespace leb128

/-- Model of the library function `leb128.FromUInt64` (package `go-leb128`,
outside this repository): the unsigned LEB128 encoding, seven bits per byte
from the low end, the high bit of a byte set when more bytes follow.  The loop
of the library runs while the remaining value is not zero; `fuel` bounds its
iterations. -/
def FromUInt64.loop : Nat → Nat → Bytes
  | 0, _ => []
  | fuel + 1, n =>
    if n / 128 = 0 then [n % 128] else (n % 128 + 128) :: FromUInt64.loop fuel (n / 128)

/-- Model of the library function `leb128.FromUInt64`: the argument is a
`uint64`, for which ten iterations of the loop are enough. -/
def FromUInt64 (n : Nat) : Bytes := FromUInt64.loop 10 (n % 2 ^ 64)

/-- Model of the loop of the library function `leb128.ToUInt64`: each byte
adds its low seven bits at the current shift to the `uint64` result, and the
loop ends at the first byte whose high bit is clear.  Reading past the end of
the slice is a run-time panic, `none`. -/
def ToUInt64.loop : Bytes → Nat → Nat → Option Nat
  | [], _, _ => none
  | b :: rest, shift, result =>
    if b / 128 % 2 = 0 then some ((result + b % 128 * 2 ^ shift) % 2 ^ 64)
    else ToUInt64.loop rest (shift + 7) ((result + b % 128 * 2 ^ shift) % 2 ^ 64)

/-- Model of the library function `leb128.ToUInt64` (package `go-leb128`,
outside this repository); `none` is a run-time panic. -/
def ToUInt64 (encoded : Bytes) : Option Nat := ToUInt64.loop encoded 0 0

end leb128

namespace base64

/-- The alphabet of `base64.StdEncoding` (RFC 4648), as bytes. -/
def encodeStd : Bytes :=
  "ABCDEFGHIJKLMNOPQRSTUVWXYZabcdefghijklmnopqrstuvwxyz0123456789+/".toList.map Char.toNat

/-- The padding character `=` of `base64.StdEncoding`. -/
def StdPadding : Nat := 61

/-- The character that stands for a six-bit group. -/
def enc6 (i : Nat) : Nat := encodeStd.getD i 0

/-- The six-bit group a character stands for, if it is in the alphabet. -/
def dec6 (c : Nat) : Option Nat :=
  if c ∈ encodeStd then some (encodeStd.indexOf c) else none

/-- Model of the standard library function
`base64.StdEncoding.EncodeToString`: three bytes give four characters, and a
last group of one or two bytes is padded with `=`. -/
def EncodeToString : Bytes → Bytes
  | [] => []
  | [a] => [enc6 (a / 4), enc6 (a % 4 * 16), StdPadding, StdPadding]
  | [a, b] => [enc6 (a / 4), enc6 (a % 4 * 16 + b / 16), enc6 (b % 16 * 4), StdPadding]
  | a :: b :: c :: rest =>
    enc6 (a / 4) :: enc6 (a % 4 * 16 + b / 16) :: enc6 (b % 16 * 4 + c / 64) :: enc6 (c % 64)
      :: EncodeToString rest

/-- Decoding of the groups of four characters of a base64 string without line
breaks; `none` is the error `CorruptInputError`. -/
def decodeQuanta : Bytes → Option Bytes
  | [] => some []
  | w :: x :: y :: z :: rest =>
    if rest = [] ∧ z = StdPadding then
      if y = StdPadding then
        match dec6 w, dec6 x with
        | some p, some q => some [(p * 4 + q / 16) % 256]
        | _, _ => none
      else
        match dec6 w, dec6 x, dec6 y with
        | some p, some q, some r => some [(p * 4 + q / 16) % 256, (q * 16 + r / 4) % 256]
        | _, _, _ => none
    else
      match dec6 w, dec6 x, dec6 y, dec6 z, decodeQuanta rest with
      | some p, some q, some r, some s, some out =>
        some ((p * 4 + q / 16) % 256 :: (q * 16 + r / 4) % 256 :: (r * 64 + s) % 256 :: out)
      | _, _, _, _, _ => none
  | _ => none

/-- Model of the standard library function `base64.StdEncoding.DecodeString`:
carriage returns and line feeds are ignored, and anything but padded groups of
four characters of the alphabet is an error. -/
def DecodeString (s : Bytes) : Except GoError Bytes :=
  match decodeQuanta (s.filter (fun c => c ≠ 13 ∧ c ≠ 10)) with
  | some out => Except.ok out
  | none => Except.error (GoError.plain "illegal base64 data")

end base64

namespace strings

/-- Model of the standard library function `strings.Trim`: the string without
its leading and trailing characters that are in the cutset. -/
def Trim (s cutset : Bytes) : Bytes :=
  ((s.dropWhile (fun c => c ∈ cutset)).reverse.dropWhile (fun c => c ∈ cutset)).reverse

end strings

namespace Uint64

/-- The method `Uint64.MarshalJSON` of `types/uint64.go`: the bytes returned
and the error, `none` being nil; 34 is the double quote. -/
def MarshalJSON (u : Nat) : Bytes × Option GoError :=
  let encoded := base64.EncodeToString (leb128.FromUInt64 u)
  ([34] ++ encoded ++ [34], none)

/-- The method `Uint64.UnmarshalJSON` of `types/uint64.go`, run on a receiver
holding `u`: the error returned and the value the receiver holds afterwards;
`none` is a run-time panic. -/
def UnmarshalJSON (u : Nat) (b : Bytes) : Option (Option GoError × Nat) :=
  match base64.DecodeString (strings.Trim b [34]) with
  | Except.error err => some (some err, u)
  | Except.ok jd =>
    match leb128.ToUInt64 jd with
    | some v => some (none, v)
    | none => none

/-- The marshal transform of `uint64AtlasEntry` in `types/uint64.go`. -/
def TransformMarshal (u : Nat) : Bytes × Option GoError :=
  (leb128.FromUInt64 u, none)

/-- The unmarshal transform of `uint64AtlasEntry` in `types/uint64.go`; `none`
is a run-time panic. -/
def TransformUnmarshal (x : Bytes) : Option (Nat × Option GoError) :=
  match leb128.ToUInt64 x with
  | some v => some (v, none)
  | none => none

end Uint64

/-! ## `vm/vm.go` over pointers

The embedding above hands `transfer` and `send` two records.  The source hands
them two pointers, which may designate one and the same record.  This section
embeds the same code over a memory of actor records addressed by pointers, in
which that can happen; every function takes the memory the program can reach
and returns it as it is after the call. -/

/-- The arithmetic of `types.TokenAmount`, missing from the sources, taken as a
parameter: `Add` and `Sub` return a new amount and leave their operands as they
are ("never mutates operands"). -/
structure Arith where
  Add : TokenAmount → TokenAmount → TokenAmount
  Sub : TokenAmount → TokenAmount → TokenAmount

/-- What the source relies on in the arithmetic.  `Sub` is called on the
sender's balance as it is, nil included (`vm.go:87`), and is read as the spec
requires, a nil amount being zero.  `Add` is called on a receiver that has been
made explicit first (`vm.go:84-86`): on an explicit receiver it adds, and of
`Add` on a nil receiver nothing is assumed. -/
structure Arith.Sound (A : Arith) : Prop where
  add : ∀ (a : Int) (y : TokenAmount), A.Add (some a) y = some (a + TokenAmount.toInt y)
  sub : ∀ (z y : TokenAmount), A.Sub z y = some (TokenAmount.toInt z - TokenAmount.toInt y)

/-- Modelled from the spec: the arithmetic in which a nil amount is zero in
every position, as used by the embedding over records. -/
def TokenAmount.std : Arith :=
  { Add := TokenAmount.Add, Sub := TokenAmount.Sub }

/-- An arithmetic in which `Add` on a nil receiver yields nil, "no balance
field", and which is otherwise the standard one. -/
def TokenAmount.strict : Arith :=
  { Add := fun z y =>
      match z with
      | none => none
      | some a => some (a + TokenAmount.toInt y),
    Sub := TokenAmount.Sub }

namespace Mem

/-- Pointers to actor records. -/
abbrev Ptr := Nat

/-- The memory a call can reach: the actor records by pointer, and the state
tree. -/
structure Machine (σ : Type) where
  actors : Ptr → Actor
  tree : σ

/-- The assignment `p.Balance = b` through the pointer `p`. -/
def Machine.setBalance {σ : Type} (m : Machine σ) (p : Ptr) (b : TokenAmount) : Machine σ :=
  { m with actors := fun q => if q = p then { m.actors p with Balance := b } else m.actors q }

/-- The assignment `*p = a` through the pointer `p`. -/
def Machine.setActor {σ : Type} (m : Machine σ) (p : Ptr) (a : Actor) : Machine σ :=
  { m with actors := fun q => if q = p then a else m.actors q }

/-- What a call of `transfer` leaves behind: the returned error (`none` is
nil), the memory, and the amount behind `value`, all as they are after the
call. -/
structure TransferResult (σ : Type) where
  err : Option GoError
  machine : Machine σ
  value : TokenAmount

/-- The function `transfer` of `vm.go`, over pointers: `fromActor` and
`toActor` may be the same pointer. -/
def transfer {σ : Type} (A : Arith) (m : Machine σ) (fromActor toActor : Ptr)
    (value : TokenAmount) : TransferResult σ :=
  if TokenAmount.IsNegative value then
    { err := some ErrCannotTransferNegativeValue, machine := m, value := value }
  else if TokenAmount.LessThan (m.actors fromActor).Balance value then
    { err := some ErrInsufficientBalance, machine := m, value := value }
  else
    -- if toActor.Balance == nil { toActor.Balance = types.ZeroToken }
    let m₁ : Machine σ :=
      if (m.actors toActor).Balance = none then m.setBalance toActor TokenAmount.ZeroToken
      else m
    -- fromActor.Balance = fromActor.Balance.Sub(value)
    let m₂ : Machine σ := m₁.setBalance fromActor (A.Sub (m₁.actors fromActor).Balance value)
    -- toActor.Balance = toActor.Balance.Add(value)
    let m₃ : Machine σ := m₂.setBalance toActor (A.Add (m₂.actors toActor).Balance value)
    { err := none, machine := m₃, value := value }

/-- The calls `send` makes to its collaborators, in the order it makes them (a
ghost log); the actor arguments of `transfer` are pointers, and `SetActor` is
logged with the record it is handed. -/
inductive Call where
  | transfer (fromActor toActor : Ptr) (value : TokenAmount)
  | SetActor (addr : Address) (a : Actor)
  | GetBuiltinActorCode (code : Cid)
  | Dispatch (method : String)
deriving DecidableEq, Repr

/-- The struct `sendDeps` of `vm.go`: the injected transfer function, which is
handed the two pointers and the amount and can reach the whole memory. -/
structure sendDeps (σ : Type) where
  transfer : Machine σ → Ptr → Ptr → TokenAmount → TransferResult σ

/-- What a call of `send` leaves behind: its three return values, the memory
as it is after the call, and the log of calls made. -/
structure SendResult (σ : Type) where
  ret : Option Bytes
  exitCode : Nat
  err : Option GoError
  machine : Machine σ
  calls : List Call

/-- The value-transfer step of `send`, the block `if msg.Value != nil { ... }`. -/
def transferStep {σ : Type} (deps : sendDeps σ) (m : Machine σ) (fromActor toActor : Ptr)
    (msg : Message) : TransferResult σ :=
  if msg.Value ≠ none then deps.transfer m fromActor toActor msg.Value
  else { err := none, machine := m, value := msg.Value }

/-- The calls logged by the value-transfer step of `send`. -/
def transferLog (fromActor toActor : Ptr) (msg : Message) : List Call :=
  if msg.Value ≠ none then [Call.transfer fromActor toActor msg.Value] else []

/-- The function `send` of `vm.go`, over pointers.  `SetActor` is handed the
record behind the pointer as it is at the call.  The dispatched method is
handed the two records behind the pointers and the tree, and what it leaves is
stored back through the pointers, the receiver last. -/
def send {σ : Type} (T : Tree σ) (deps : sendDeps σ) (m : Machine σ)
    (fromActor toActor : Ptr) (msg : Message) : SendResult σ :=
  let tr : TransferResult σ := transferStep deps m fromActor toActor msg
  let log₀ : List Call := transferLog fromActor toActor msg
  match tr.err with
  | some err =>
    { ret := none, exitCode := 1, err := some err, machine := tr.machine, calls := log₀ }
  | none =>
    -- save balance changes
    let log₁ := log₀ ++ [Call.SetActor msg.From (tr.machine.actors fromActor)]
    match T.SetActor tr.machine.tree msg.From (tr.machine.actors fromActor) with
    | (some err, st₁) =>
      { ret := none, exitCode := 1,
        err := some (errors.FaultErrorWrap err "could not set from actor after send"),
        machine := { tr.machine with tree := st₁ }, calls := log₁ }
    | (none, st₁) =>
      let log₂ := log₁ ++ [Call.SetActor msg.To (tr.machine.actors toActor)]
      match T.SetActor st₁ msg.To (tr.machine.actors toActor) with
      | (some err, st₂) =>
        { ret := none, exitCode := 1,
          err := some (errors.FaultErrorWrap err "could not set to actor after send"),
          machine := { tr.machine with tree := st₂ }, calls := log₂ }
      | (none, st₂) =>
        if msg.Method = "" then
          -- if only tokens are transferred there is no need for a method
          { ret := none, exitCode := 0, err := none,
            machine := { tr.machine with tree := st₂ }, calls := log₂ }
        else
          let log₃ := log₂ ++ [Call.GetBuiltinActorCode (tr.machine.actors toActor).Code]
          match T.GetBuiltinActorCode st₂ (tr.machine.actors toActor).Code with
          | Except.error err =>
            { ret := none, exitCode := 1,
              err := some (errors.FaultErrorWrap err "unable to load code for To actor"),
              machine := { tr.machine with tree := st₂ }, calls := log₃ }
          | Except.ok toExecutable =>
            if ¬ (msg.Method ∈ toExecutable.Exports) then
              { ret := none, exitCode := 1,
                err := some (errors.NewRevertErrorf "missing export: " msg.Method),
                machine := { tr.machine with tree := st₂ }, calls := log₃ }
            else
              let vmCtx : VMContext σ :=
                { fromActor := tr.machine.actors fromActor,
                  toActor := tr.machine.actors toActor,
                  message := { msg with Value := tr.value }, state := st₂ }
              let out := toExecutable.MakeTypedExport msg.Method vmCtx
              { ret := out.ret, exitCode := out.exitCode, err := out.err,
                machine :=
                  (({ tr.machine with tree := out.state }).setActor fromActor
                    out.fromActor).setActor toActor out.toActor,
                calls := log₃ ++ [Call.Dispatch msg.Method] }

/-- The function `Send` of `vm.go`, over pointers: `send` with the real
`transfer`. -/
def Send {σ : Type} (A : Arith) (T : Tree σ) (m : Machine σ) (fromActor toActor : Ptr)
    (msg : Message) : SendResult σ :=
  send T { transfer := transfer A } m fromActor toActor msg

/-- A memory in which every pointer designates a record with code 1 and
balance 100, over an in-memory tree holding that record at address 7. -/
def hundred : Machine MemTree :=
  { actors := fun _ => { Code := 1, Balance := some 100 },
    tree := { actors := [(7, { Code := 1, Balance := some 100 })], broken := [] } }

/-- A memory with a sender (pointer 0: code 1, balance 100) and a receiver
(every other pointer: code 2, nil balance), over an empty in-memory tree. -/
def pair : Machine MemTree :=
  { actors := fun p =>
      if p = 0 then { Code := 1, Balance := some 100 } else { Code := 2, Balance := none },
    tree := { actors := [], broken := [] } }

end Mem

/-- The log entry over pointers that stands for a log entry over records, the
two records being the ones behind `fromActor` and `toActor`. -/
def Mem.Call.ofCall (fromActor toActor : Mem.Ptr) : Filecoin.Call → Mem.Call
  | Filecoin.Call.transfer _ _ value => Mem.Call.transfer fromActor toActor value
  | Filecoin.Call.SetActor addr a => Mem.Call.SetActor addr a
  | Filecoin.Call.GetBuiltinActorCode code => Mem.Call.GetBuiltinActorCode code
  | Filecoin.Call.Dispatch method => Mem.Call.Dispatch method

/-! ## Theorems: `transfer` -/

/-- A nil amount stands for zero. -/
theorem TokenAmount.toInt_none : TokenAmount.toInt none = 0 := rfl

/-- A non-nil amount stands for the integer it holds. -/
theorem TokenAmount.toInt_some (v : Int) : TokenAmount.toInt (some v) = v := rfl

/-- The result of `transfer` when the amount is negative. -/
theorem transfer_of_negative (fromActor toActor : Actor) (amount : TokenAmount)
    (h : TokenAmount.toInt amount < 0) :
    transfer fromActor toActor amount =
      { err := some ErrCannotTransferNegativeValue, fromActor := fromActor, toActor := toActor } := by
  simp [transfer, TokenAmount.IsNegative, h]

/-- The result of `transfer` when the amount is not negative and exceeds the
sender's balance. -/
theorem transfer_of_insufficient (fromActor toActor : Actor) (amount : TokenAmount)
    (h0 : 0 ≤ TokenAmount.toInt amount)
    (h1 : TokenAmount.toInt fromActor.Balance < TokenAmount.toInt amount) :
    transfer fromActor toActor amount =
      { err := some ErrInsufficientBalance, fromActor := fromActor, toActor := toActor } := by
  simp [transfer, TokenAmount.IsNegative, TokenAmount.LessThan, h1, not_lt.mpr h0]

/-- The result of `transfer` when the amount is valid: no error, the sender's
balance lowered and the receiver's balance raised by the amount. -/
theorem transfer_of_valid (fromActor toActor : Actor) (amount : TokenAmount)
    (h0 : 0 ≤ TokenAmount.toInt amount)
    (h1 : TokenAmount.toInt amount ≤ TokenAmount.toInt fromActor.Balance) :
    transfer fromActor toActor amount =
      { err := none,
        fromActor := { fromActor with
          Balance := some (TokenAmount.toInt fromActor.Balance - TokenAmount.toInt amount) },
        toActor := { toActor with
          Balance := some (TokenAmount.toInt toActor.Balance + TokenAmount.toInt amount) } } := by
  cases hb : toActor.Balance <;>
    simp [transfer, TokenAmount.IsNegative, TokenAmount.LessThan, TokenAmount.Add,
      TokenAmount.Sub, TokenAmount.ZeroToken, TokenAmount.toInt_none, TokenAmount.toInt_some,
      hb, not_lt.mpr h0, not_lt.mpr h1]

/-- C1 (conservation): whenever `from.Balance >= amount >= 0`, `transfer`
returns no error and the sum of the two balances after the call equals the sum
before it, a nil balance counting as zero. -/
theorem transfer_conservation (fromActor toActor : Actor) (amount : TokenAmount)
    (h0 : 0 ≤ TokenAmount.toInt amount)
    (h1 : TokenAmount.toInt amount ≤ TokenAmount.toInt fromActor.Balance) :
    (transfer fromActor toActor amount).err = none ∧
    TokenAmount.toInt (transfer fromActor toActor amount).fromActor.Balance
        + TokenAmount.toInt (transfer fromActor toActor amount).toActor.Balance
      = TokenAmount.toInt fromActor.Balance + TokenAmount.toInt toActor.Balance := by
  rw [transfer_of_valid fromActor toActor amount h0 h1]
  refine ⟨rfl, ?_⟩
  simp only [TokenAmount.toInt]
  omega

/-- Witness of C1: 100 and a nil balance, amount 30. -/
theorem transfer_conservation_witness :
    (transfer ⟨1, some 100⟩ ⟨2, none⟩ (some 30)).err = none ∧
    TokenAmount.toInt (transfer ⟨1, some 100⟩ ⟨2, none⟩ (some 30)).fromActor.Balance
        + TokenAmount.toInt (transfer ⟨1, some 100⟩ ⟨2, none⟩ (some 30)).toActor.Balance
      = TokenAmount.toInt (some 100) + TokenAmount.toInt none :=
  transfer_conservation ⟨1, some 100⟩ ⟨2, none⟩ (some 30) (by decide) (by decide)

/-- C2 (negative rejection): for every amount below zero, `transfer` returns
the revert error `ErrCannotTransferNegativeValue` and both records are exactly
as they were, a nil balance staying nil. -/
theorem transfer_negative_rejected (fromActor toActor : Actor) (amount : TokenAmount)
    (h : TokenAmount.toInt amount < 0) :
    (transfer fromActor toActor amount).err = some ErrCannotTransferNegativeValue ∧
    errors.ShouldRevert ErrCannotTransferNegativeValue = true ∧
    (transfer fromActor toActor amount).fromActor = fromActor ∧
    (transfer fromActor toActor amount).toActor = toActor := by
  rw [transfer_of_negative fromActor toActor amount h]
  exact ⟨rfl, rfl, rfl, rfl⟩

/-- Witness of C2: amount -5 towards a receiver whose balance is nil. -/
theorem transfer_negative_rejected_witness :
    (transfer ⟨1, some 100⟩ ⟨2, none⟩ (some (-5))).err = some ErrCannotTransferNegativeValue ∧
    errors.ShouldRevert ErrCannotTransferNegativeValue = true ∧
    (transfer ⟨1, some 100⟩ ⟨2, none⟩ (some (-5))).fromActor = ⟨1, some 100⟩ ∧
    (transfer ⟨1, some 100⟩ ⟨2, none⟩ (some (-5))).toActor = ⟨2, none⟩ :=
  transfer_negative_rejected ⟨1, some 100⟩ ⟨2, none⟩ (some (-5)) (by decide)

/-- C3, as stated, fails: with a sender balance of -10 and an amount of -5 the
amount exceeds the balance, and `transfer` returns
`ErrCannotTransferNegativeValue`, not `ErrInsufficientBalance`. -/
theorem transfer_insufficient_counterexample :
    TokenAmount.toInt (some (-5)) > TokenAmount.toInt (Actor.mk 1 (some (-10))).Balance ∧
    (transfer ⟨1, some (-10)⟩ ⟨2, some 0⟩ (some (-5))).err ≠ some ErrInsufficientBalance ∧
    (transfer ⟨1, some (-10)⟩ ⟨2, some 0⟩ (some (-5))).err
      = some ErrCannotTransferNegativeValue := by
  decide

/-- C3 (insufficient-balance rejection, amended): for every amount that is not
negative and exceeds the sender's balance, `transfer` returns the revert error
`ErrInsufficientBalance` and both records are exactly as they were. -/
theorem transfer_insufficient_rejected (fromActor toActor : Actor) (amount : TokenAmount)
    (h0 : 0 ≤ TokenAmount.toInt amount)
    (h1 : TokenAmount.toInt amount > TokenAmount.toInt fromActor.Balance) :
    (transfer fromActor toActor amount).err = some ErrInsufficientBalance ∧
    errors.ShouldRevert ErrInsufficientBalance = true ∧
    (transfer fromActor toActor amount).fromActor = fromActor ∧
    (transfer fromActor toActor amount).toActor = toActor := by
  rw [transfer_of_insufficient fromActor toActor amount h0 h1]
  exact ⟨rfl, rfl, rfl, rfl⟩

/-- Witness of the amended C3: balance 10, amount 11. -/
theorem transfer_insufficient_rejected_witness :
    (transfer ⟨1, some 10⟩ ⟨2, none⟩ (some 11)).err = some ErrInsufficientBalance ∧
    errors.ShouldRevert ErrInsufficientBalance = true ∧
    (transfer ⟨1, some 10⟩ ⟨2, none⟩ (some 11)).fromActor = ⟨1, some 10⟩ ∧
    (transfer ⟨1, some 10⟩ ⟨2, none⟩ (some 11)).toActor = ⟨2, none⟩ :=
  transfer_insufficient_rejected ⟨1, some 10⟩ ⟨2, none⟩ (some 11) (by decide) (by decide)

/-! ## Theorems: the in-memory tree -/

/-- Reading the address just written gives the record written. -/
theorem MemTree.find_put_same (a : Address) (x : Actor) (l : List (Address × Actor)) :
    MemTree.find a (MemTree.put a x l) = some x := by
  induction l with
  | nil => simp [MemTree.put, MemTree.find]
  | cons p rest ih =>
    obtain ⟨b, y⟩ := p
    by_cases h : b = a
    · simp [MemTree.put, MemTree.find, h]
    · simp [MemTree.put, MemTree.find, h, ih]

/-- Writing an address leaves every other address as it was. -/
theorem MemTree.find_put_other (a b : Address) (x : Actor) (l : List (Address × Actor))
    (hne : b ≠ a) : MemTree.find b (MemTree.put a x l) = MemTree.find b l := by
  induction l with
  | nil => simp [MemTree.put, MemTree.find, Ne.symm hne]
  | cons p rest ih =>
    obtain ⟨c, y⟩ := p
    by_cases h : c = a
    · subst h
      simp [MemTree.put, MemTree.find, Ne.symm hne]
    · by_cases h2 : c = b
      · subst h2
        simp [MemTree.put, MemTree.find, h]
      · simp [MemTree.put, MemTree.find, h, h2, ih]

/-- The in-memory tree stores what is written to it. -/
theorem MemTree.tree_lawful (code : Cid → Except GoError (Executable MemTree)) :
    (MemTree.tree code).Lawful := by
  constructor
  · intro s s' a x h
    simp only [MemTree.tree] at h ⊢
    split at h
    · simp at h
    · simp only [Prod.mk.injEq, true_and] at h
      subst h
      simp [MemTree.find_put_same]
  · intro s s' a b x h hne
    simp only [MemTree.tree] at h ⊢
    split at h
    · simp at h
    · simp only [Prod.mk.injEq, true_and] at h
      subst h
      simp [MemTree.find_put_other _ _ _ _ hne]

/-! ## Theorems: the paths through `send` -/

/-- With a nil value the transfer step leaves both records as they are. -/
theorem transferStep_nil (deps : sendDeps) (fromActor toActor : Actor) (msg : Message)
    (h : msg.Value = none) :
    transferStep deps fromActor toActor msg =
      { err := none, fromActor := fromActor, toActor := toActor } := by
  simp [transferStep, h]

/-- With a value present the transfer step is the injected transfer. -/
theorem transferStep_some (deps : sendDeps) (fromActor toActor : Actor) (msg : Message)
    (h : msg.Value ≠ none) :
    transferStep deps fromActor toActor msg = deps.transfer fromActor toActor msg.Value := by
  simp [transferStep, h]

/-- Path 1: the transfer step fails. -/
theorem send_of_transfer_error {σ : Type} (T : Tree σ) (deps : sendDeps)
    (fromActor toActor : Actor) (msg : Message) (st : σ) (e : GoError)
    (h : (transferStep deps fromActor toActor msg).err = some e) :
    send T deps fromActor toActor msg st =
      { ret := none, exitCode := 1, err := some e,
        fromActor := (transferStep deps fromActor toActor msg).fromActor,
        toActor := (transferStep deps fromActor toActor msg).toActor,
        state := st, calls := transferLog fromActor toActor msg } := by
  simp only [send, h]

/-- Path 2: the write of the sender fails. -/
theorem send_of_set_from_error {σ : Type} (T : Tree σ) (deps : sendDeps)
    (fromActor toActor : Actor) (msg : Message) (st st₁ : σ) (e : GoError)
    (htr : (transferStep deps fromActor toActor msg).err = none)
    (h1 : T.SetActor st msg.From (transferStep deps fromActor toActor msg).fromActor
      = (some e, st₁)) :
    send T deps fromActor toActor msg st =
      { ret := none, exitCode := 1,
        err := some (errors.FaultErrorWrap e "could not set from actor after send"),
        fromActor := (transferStep deps fromActor toActor msg).fromActor,
        toActor := (transferStep deps fromActor toActor msg).toActor,
        state := st₁,
        calls := transferLog fromActor toActor msg ++
          [Call.SetActor msg.From (transferStep deps fromActor toActor msg).fromActor] } := by
  simp only [send, htr, h1]

/-- Path 3: the write of the sender succeeds and the write of the receiver
fails. -/
theorem send_of_set_to_error {σ : Type} (T : Tree σ) (deps : sendDeps)
    (fromActor toActor : Actor) (msg : Message) (st st₁ st₂ : σ) (e : GoError)
    (htr : (transferStep deps fromActor toActor msg).err = none)
    (h1 : T.SetActor st msg.From (transferStep deps fromActor toActor msg).fromActor
      = (none, st₁))
    (h2 : T.SetActor st₁ msg.To (transferStep deps fromActor toActor msg).toActor
      = (some e, st₂)) :
    send T deps fromActor toActor msg st =
      { ret := none, exitCode := 1,
        err := some (errors.FaultErrorWrap e "could not set to actor after send"),
        fromActor := (transferStep deps fromActor toActor msg).fromActor,
        toActor := (transferStep deps fromActor toActor msg).toActor,
        state := st₂,
        calls := transferLog fromActor toActor msg ++
          [Call.SetActor msg.From (transferStep deps fromActor toActor msg).fromActor] ++
          [Call.SetActor msg.To (transferStep deps fromActor toActor msg).toActor] } := by
  simp only [send, htr, h1, h2]

/-- Path 4: both writes succeed and the method is empty. -/
theorem send_of_empty_method {σ : Type} (T : Tree σ) (deps : sendDeps)
    (fromActor toActor : Actor) (msg : Message) (st st₁ st₂ : σ)
    (htr : (transferStep deps fromActor toActor msg).err = none)
    (h1 : T.SetActor st msg.From (transferStep deps fromActor toActor msg).fromActor
      = (none, st₁))
    (h2 : T.SetActor st₁ msg.To (transferStep deps fromActor toActor msg).toActor
      = (none, st₂))
    (hm : msg.Method = "") :
    send T deps fromActor toActor msg st =
      { ret := none, exitCode := 0, err := none,
        fromActor := (transferStep deps fromActor toActor msg).fromActor,
        toActor := (transferStep deps fromActor toActor msg).toActor,
        state := st₂,
        calls := transferLog fromActor toActor msg ++
          [Call.SetActor msg.From (transferStep deps fromActor toActor msg).fromActor] ++
          [Call.SetActor msg.To (transferStep deps fromActor toActor msg).toActor] } := by
  simp only [send, htr, h1, h2, hm, if_true]

/-- Path 5: both writes succeed, the method is not empty and the code of the
receiver does not resolve. -/
theorem send_of_code_error {σ : Type} (T : Tree σ) (deps : sendDeps)
    (fromActor toActor : Actor) (msg : Message) (st st₁ st₂ : σ) (e : GoError)
    (htr : (transferStep deps fromActor toActor msg).err = none)
    (h1 : T.SetActor st msg.From (transferStep deps fromActor toActor msg).fromActor
      = (none, st₁))
    (h2 : T.SetActor st₁ msg.To (transferStep deps fromActor toActor msg).toActor
      = (none, st₂))
    (hm : msg.Method ≠ "")
    (hc : T.GetBuiltinActorCode st₂ (transferStep deps fromActor toActor msg).toActor.Code
      = Except.error e) :
    send T deps fromActor toActor msg st =
      { ret := none, exitCode := 1,
        err := some (errors.FaultErrorWrap e "unable to load code for To actor"),
        fromActor := (transferStep deps fromActor toActor msg).fromActor,
        toActor := (transferStep deps fromActor toActor msg).toActor,
        state := st₂,
        calls := transferLog fromActor toActor msg ++
          [Call.SetActor msg.From (transferStep deps fromActor toActor msg).fromActor] ++
          [Call.SetActor msg.To (transferStep deps fromActor toActor msg).toActor] ++
          [Call.GetBuiltinActorCode (transferStep deps fromActor toActor msg).toActor.Code] } := by
  simp only [send, htr, h1, h2, hm, hc, if_false]

/-- Path 6: the code resolves and does not export the method. -/
theorem send_of_missing_export {σ : Type} (T : Tree σ) (deps : sendDeps)
    (fromActor toActor : Actor) (msg : Message) (st st₁ st₂ : σ) (exe : Executable σ)
    (htr : (transferStep deps fromActor toActor msg).err = none)
    (h1 : T.SetActor st msg.From (transferStep deps fromActor toActor msg).fromActor
      = (none, st₁))
    (h2 : T.SetActor st₁ msg.To (transferStep deps fromActor toActor msg).toActor
      = (none, st₂))
    (hm : msg.Method ≠ "")
    (hc : T.GetBuiltinActorCode st₂ (transferStep deps fromActor toActor msg).toActor.Code
      = Except.ok exe)
    (hx : msg.Method ∉ exe.Exports) :
    send T deps fromActor toActor msg st =
      { ret := none, exitCode := 1,
        err := some (errors.NewRevertErrorf "missing export: " msg.Method),
        fromActor := (transferStep deps fromActor toActor msg).fromActor,
        toActor := (transferStep deps fromActor toActor msg).toActor,
        state := st₂,
        calls := transferLog fromActor toActor msg ++
          [Call.SetActor msg.From (transferStep deps fromActor toActor msg).fromActor] ++
          [Call.SetActor msg.To (transferStep deps fromActor toActor msg).toActor] ++
          [Call.GetBuiltinActorCode (transferStep deps fromActor toActor msg).toActor.Code] } := by
  simp only [send, htr, h1, h2, hm, hc, hx, if_false, not_false_eq_true, if_true]

/-- Path 7: the code resolves and exports the method, which is dispatched. -/
theorem send_of_dispatch {σ : Type} (T : Tree σ) (deps : sendDeps)
    (fromActor toActor : Actor) (msg : Message) (st st₁ st₂ : σ) (exe : Executable σ)
    (htr : (transferStep deps fromActor toActor msg).err = none)
    (h1 : T.SetActor st msg.From (transferStep deps fromActor toActor msg).fromActor
      = (none, st₁))
    (h2 : T.SetActor st₁ msg.To (transferStep deps fromActor toActor msg).toActor
      = (none, st₂))
    (hm : msg.Method ≠ "")
    (hc : T.GetBuiltinActorCode st₂ (transferStep deps fromActor toActor msg).toActor.Code
      = Except.ok exe)
    (hx : msg.Method ∈ exe.Exports) :
    send T deps fromActor toActor msg st =
      { ret := (exe.MakeTypedExport msg.Method
            { fromActor := (transferStep deps fromActor toActor msg).fromActor,
              toActor := (transferStep deps fromActor toActor msg).toActor,
              message := msg, state := st₂ }).ret,
        exitCode := (exe.MakeTypedExport msg.Method
            { fromActor := (transferStep deps fromActor toActor msg).fromActor,
              toActor := (transferStep deps fromActor toActor msg).toActor,
              message := msg, state := st₂ }).exitCode,
        err := (exe.MakeTypedExport msg.Method
            { fromActor := (transferStep deps fromActor toActor msg).fromActor,
              toActor := (transferStep deps fromActor toActor msg).toActor,
              message := msg, state := st₂ }).err,
        fromActor := (exe.MakeTypedExport msg.Method
            { fromActor := (transferStep deps fromActor toActor msg).fromActor,
              toActor := (transferStep deps fromActor toActor msg).toActor,
              message := msg, state := st₂ }).fromActor,
        toActor := (exe.MakeTypedExport msg.Method
            { fromActor := (transferStep deps fromActor toActor msg).fromActor,
              toActor := (transferStep deps fromActor toActor msg).toActor,
              message := msg, state := st₂ }).toActor,
        state := (exe.MakeTypedExport msg.Method
            { fromActor := (transferStep deps fromActor toActor msg).fromActor,
              toActor := (transferStep deps fromActor toActor msg).toActor,
              message := msg, state := st₂ }).state,
        calls := transferLog fromActor toActor msg ++
          [Call.SetActor msg.From (transferStep deps fromActor toActor msg).fromActor] ++
          [Call.SetActor msg.To (transferStep deps fromActor toActor msg).toActor] ++
          [Call.GetBuiltinActorCode (transferStep deps fromActor toActor msg).toActor.Code] ++
          [Call.Dispatch msg.Method] } := by
  simp only [send, htr, h1, h2, hm, hc, hx, if_false, not_true_eq_false]

/-! ## Theorems: `Send` -/

/-- The only errors `transfer` returns are its two revert errors. -/
theorem transfer_err_cases (fromActor toActor : Actor) (amount : TokenAmount) (e : GoError)
    (h : (transfer fromActor toActor amount).err = some e) :
    e = ErrCannotTransferNegativeValue ∨ e = ErrInsufficientBalance := by
  unfold transfer at h
  split_ifs at h
  · left; simpa using h.symm
  · right; simpa using h.symm

/-- When `transfer` returns an error both records are as they were. -/
theorem transfer_err_frame (fromActor toActor : Actor) (amount : TokenAmount) (e : GoError)
    (h : (transfer fromActor toActor amount).err = some e) :
    (transfer fromActor toActor amount).fromActor = fromActor ∧
    (transfer fromActor toActor amount).toActor = toActor := by
  unfold transfer at h ⊢
  split_ifs at h ⊢
  · exact ⟨rfl, rfl⟩
  · exact ⟨rfl, rfl⟩

/-- The function `transfer` never changes the code of either record. -/
theorem transfer_code (fromActor toActor : Actor) (amount : TokenAmount) :
    (transfer fromActor toActor amount).fromActor.Code = fromActor.Code ∧
    (transfer fromActor toActor amount).toActor.Code = toActor.Code := by
  unfold transfer
  split_ifs <;> exact ⟨rfl, rfl⟩

/-- The transfer step of `Send` never changes the code of the receiver. -/
theorem transferStep_toActor_code (fromActor toActor : Actor) (msg : Message) :
    (transferStep { transfer := transfer } fromActor toActor msg).toActor.Code
      = toActor.Code := by
  unfold transferStep
  split_ifs
  · exact (transfer_code fromActor toActor msg.Value).2
  · rfl

/-- The transfer step of `Send` succeeds when no value is present or the value
is valid. -/
theorem transferStep_ok (fromActor toActor : Actor) (msg : Message)
    (hval : msg.Value = none ∨ (0 ≤ TokenAmount.toInt msg.Value ∧
      TokenAmount.toInt msg.Value ≤ TokenAmount.toInt fromActor.Balance)) :
    (transferStep { transfer := transfer } fromActor toActor msg).err = none := by
  by_cases hv : msg.Value = none
  · rw [transferStep_nil _ _ _ _ hv]
  · rcases hval with h | ⟨h0, h1⟩
    · exact absurd h hv
    · rw [transferStep_some _ _ _ _ hv]
      show (transfer fromActor toActor msg.Value).err = none
      rw [transfer_of_valid fromActor toActor msg.Value h0 h1]

/-- The log of the transfer step holds calls of `transfer` only. -/
theorem transferLog_only_transfer (fromActor toActor : Actor) (msg : Message) (c : Call)
    (h : c ∈ transferLog fromActor toActor msg) :
    c = Call.transfer fromActor toActor msg.Value := by
  unfold transferLog at h
  split_ifs at h
  · simpa using h
  · simp at h

/-- Every error `Send` returns either carries exactly one tag, or is the error
returned by the method it dispatched. -/
theorem Send_err_cases {σ : Type} (T : Tree σ) (fromActor toActor : Actor) (msg : Message)
    (st : σ) (e : GoError) (herr : (Send T fromActor toActor msg st).err = some e) :
    ExactlyOneTag e ∨
    (Call.Dispatch msg.Method ∈ (Send T fromActor toActor msg st).calls ∧
      ∃ (s : σ) (c : Cid) (exe : Executable σ) (ctx : VMContext σ),
        T.GetBuiltinActorCode s c = Except.ok exe ∧
        (exe.MakeTypedExport msg.Method ctx).err = some e) := by
  unfold Send at herr ⊢
  cases htr : (transferStep { transfer := transfer } fromActor toActor msg).err with
  | some e₀ =>
    rw [send_of_transfer_error T _ fromActor toActor msg st e₀ htr] at herr
    have he : e₀ = e := by simpa using herr
    subst he
    left
    have hv : msg.Value ≠ none := by
      intro hv
      rw [transferStep_nil _ _ _ _ hv] at htr
      simp at htr
    rw [transferStep_some _ _ _ _ hv] at htr
    rcases transfer_err_cases fromActor toActor msg.Value e₀ htr with h | h <;>
      subst h <;> exact Or.inl ⟨rfl, rfl⟩
  | none =>
    rcases h1 : T.SetActor st msg.From
      (transferStep { transfer := transfer } fromActor toActor msg).fromActor with ⟨_ | e₁, st₁⟩
    swap
    · rw [send_of_set_from_error T _ fromActor toActor msg st st₁ e₁ htr h1] at herr
      have he : errors.FaultErrorWrap e₁ "could not set from actor after send" = e := by
        simpa using herr
      subst he
      exact Or.inl (Or.inr ⟨rfl, rfl⟩)
    rcases h2 : T.SetActor st₁ msg.To
      (transferStep { transfer := transfer } fromActor toActor msg).toActor with ⟨_ | e₂, st₂⟩
    swap
    · rw [send_of_set_to_error T _ fromActor toActor msg st st₁ st₂ e₂ htr h1 h2] at herr
      have he : errors.FaultErrorWrap e₂ "could not set to actor after send" = e := by
        simpa using herr
      subst he
      exact Or.inl (Or.inr ⟨rfl, rfl⟩)
    by_cases hm : msg.Method = ""
    · rw [send_of_empty_method T _ fromActor toActor msg st st₁ st₂ htr h1 h2 hm] at herr
      simp at herr
    cases hc : T.GetBuiltinActorCode st₂
      (transferStep { transfer := transfer } fromActor toActor msg).toActor.Code with
    | error e₃ =>
      rw [send_of_code_error T _ fromActor toActor msg st st₁ st₂ e₃ htr h1 h2 hm hc] at herr
      have he : errors.FaultErrorWrap e₃ "unable to load code for To actor" = e := by
        simpa using herr
      subst he
      exact Or.inl (Or.inr ⟨rfl, rfl⟩)
    | ok exe =>
      by_cases hx : msg.Method ∈ exe.Exports
      · rw [send_of_dispatch T _ fromActor toActor msg st st₁ st₂ exe htr h1 h2 hm hc hx]
          at herr ⊢
        right
        refine ⟨by simp, st₂, _, exe,
          { fromActor := (transferStep { transfer := transfer } fromActor toActor msg).fromActor,
            toActor := (transferStep { transfer := transfer } fromActor toActor msg).toActor,
            message := msg, state := st₂ }, hc, ?_⟩
        exact herr
      · rw [send_of_missing_export T _ fromActor toActor msg st st₁ st₂ exe htr h1 h2 hm hc hx]
          at herr
        have he : errors.NewRevertErrorf "missing export: " msg.Method = e := by
          simpa using herr
        subst he
        exact Or.inl (Or.inl ⟨rfl, rfl⟩)

/-- C7 (the code at the failing input): the comment on `Send` promises that a
returned error "will always satisfy either ShouldRevert() or IsFault()", and
`send` returns the result of the dispatched method as it is (`vm.go:72`).  On a
message whose method `"fail"` is exported and returns an ordinary Go error,
`Send` returns that error unchanged, and it carries neither the Revert nor the
Fault tag. -/
theorem Send_returns_untagged_error :
    (Send (MemTree.tree MemTree.failingCode) ⟨1, some 100⟩ ⟨2, some 0⟩ ⟨7, 8, "fail", none⟩
      ⟨[], []⟩).err = some (GoError.plain "boom") ∧
    errors.ShouldRevert (GoError.plain "boom") = false ∧
    errors.IsFault (GoError.plain "boom") = false ∧
    ¬ ExactlyOneTag (GoError.plain "boom") := by
  refine ⟨rfl, rfl, rfl, ?_⟩
  simp [ExactlyOneTag, errors.ShouldRevert, errors.IsFault]

/-- Where the promise of the comment on `Send` holds: if `Send` returns a
non-nil error without having dispatched a method, the error carries exactly one
of the tags Revert and Fault; and if every error returned by the methods of the
executables the tree resolves carries exactly one tag, so does every error
`Send` returns (the error of the dispatched method is passed through as it
is). -/
theorem Send_error_classification {σ : Type} (T : Tree σ) (fromActor toActor : Actor)
    (msg : Message) (st : σ) (e : GoError)
    (herr : (Send T fromActor toActor msg st).err = some e) :
    (Call.Dispatch msg.Method ∉ (Send T fromActor toActor msg st).calls → ExactlyOneTag e) ∧
    ((∀ (s : σ) (c : Cid) (exe : Executable σ) (ctx : VMContext σ) (e₁ : GoError),
        T.GetBuiltinActorCode s c = Except.ok exe →
        (exe.MakeTypedExport msg.Method ctx).err = some e₁ → ExactlyOneTag e₁) →
      ExactlyOneTag e) := by
  rcases Send_err_cases T fromActor toActor msg st e herr with h | ⟨hd, s, c, exe, ctx, hc, he⟩
  · exact ⟨fun _ => h, fun _ => h⟩
  · exact ⟨fun hnd => absurd hd hnd, fun hcallee => hcallee s c exe ctx e hc he⟩

/-- C8 (missing export): for a message whose non-empty method is not among the
exports of the executable resolved for `to.Code`, when the transfer requested
(if any) succeeds and both writes and the code resolution succeed, `Send`
returns nil bytes, exit code 1 and the Revert-tagged error
`missing export: <method>`, and no method is dispatched; this covers a nil
value as well as a value present and transferred. -/
theorem Send_missing_export {σ : Type} (T : Tree σ) (fromActor toActor : Actor)
    (msg : Message) (st st₁ st₂ : σ) (exe : Executable σ)
    (hval : msg.Value = none ∨ (0 ≤ TokenAmount.toInt msg.Value ∧
      TokenAmount.toInt msg.Value ≤ TokenAmount.toInt fromActor.Balance))
    (h1 : T.SetActor st msg.From
      (transferStep { transfer := transfer } fromActor toActor msg).fromActor = (none, st₁))
    (h2 : T.SetActor st₁ msg.To
      (transferStep { transfer := transfer } fromActor toActor msg).toActor = (none, st₂))
    (hm : msg.Method ≠ "")
    (hc : T.GetBuiltinActorCode st₂ toActor.Code = Except.ok exe)
    (hx : msg.Method ∉ exe.Exports) :
    (Send T fromActor toActor msg st).ret = none ∧
    (Send T fromActor toActor msg st).exitCode = 1 ∧
    (Send T fromActor toActor msg st).err
      = some (GoError.revert ("missing export: " ++ msg.Method)) ∧
    errors.ShouldRevert (GoError.revert ("missing export: " ++ msg.Method)) = true ∧
    errors.IsFault (GoError.revert ("missing export: " ++ msg.Method)) = false ∧
    (∀ m : String, Call.Dispatch m ∉ (Send T fromActor toActor msg st).calls) ∧
    (Send T fromActor toActor msg st).state = st₂ := by
  have htr := transferStep_ok fromActor toActor msg hval
  rw [← transferStep_toActor_code fromActor toActor msg] at hc
  have hS : Send T fromActor toActor msg st = _ :=
    send_of_missing_export T { transfer := transfer } fromActor toActor msg st st₁ st₂ exe
      htr h1 h2 hm hc hx
  rw [hS]
  refine ⟨rfl, rfl, rfl, rfl, rfl, ?_, rfl⟩
  intro m hmem
  simp only [List.mem_append, List.mem_singleton] at hmem
  rcases hmem with ((hmem | hmem) | hmem) | hmem
  · exact Call.noConfusion (transferLog_only_transfer _ _ _ _ hmem)
  · exact Call.noConfusion hmem
  · exact Call.noConfusion hmem
  · exact Call.noConfusion hmem

/-- Witness of C8: the method `"absent"` is not exported, once with a nil value
and once with the value 30 transferred. -/
theorem Send_missing_export_witness :
    ((Send (MemTree.tree MemTree.rejectingCode) ⟨1, some 100⟩ ⟨2, some 0⟩
        ⟨7, 8, "absent", none⟩ ⟨[], []⟩).exitCode = 1 ∧
      (Send (MemTree.tree MemTree.rejectingCode) ⟨1, some 100⟩ ⟨2, some 0⟩
        ⟨7, 8, "absent", none⟩ ⟨[], []⟩).err = some (GoError.revert "missing export: absent")) ∧
    ((Send (MemTree.tree MemTree.rejectingCode) ⟨1, some 100⟩ ⟨2, some 0⟩
        ⟨7, 8, "absent", some 30⟩ ⟨[], []⟩).exitCode = 1 ∧
      (Send (MemTree.tree MemTree.rejectingCode) ⟨1, some 100⟩ ⟨2, some 0⟩
        ⟨7, 8, "absent", some 30⟩ ⟨[], []⟩).err
        = some (GoError.revert "missing export: absent")) :=
  have ha := Send_missing_export (MemTree.tree MemTree.rejectingCode) ⟨1, some 100⟩ ⟨2, some 0⟩
    ⟨7, 8, "absent", none⟩ ⟨[], []⟩ ⟨[(7, ⟨1, some 100⟩)], []⟩
    ⟨[(7, ⟨1, some 100⟩), (8, ⟨2, some 0⟩)], []⟩
    { Exports := ["reject"], MakeTypedExport := fun _ => MemTree.rejectingMethod }
    (Or.inl rfl) rfl rfl (by decide) rfl (by decide)
  have hb := Send_missing_export (MemTree.tree MemTree.rejectingCode) ⟨1, some 100⟩ ⟨2, some 0⟩
    ⟨7, 8, "absent", some 30⟩ ⟨[], []⟩ ⟨[(7, ⟨1, some 70⟩)], []⟩
    ⟨[(7, ⟨1, some 70⟩), (8, ⟨2, some 30⟩)], []⟩
    { Exports := ["reject"], MakeTypedExport := fun _ => MemTree.rejectingMethod }
    (Or.inr ⟨by decide, by decide⟩) rfl rfl (by decide) rfl (by decide)
  ⟨⟨ha.2.1, ha.2.2.1⟩, ⟨hb.2.1, hb.2.2.1⟩⟩

/-- C9 (fault propagation on persistence): when the transfer step does not
fail, (a) if the write of `msg.From` fails, `Send` returns `(nil, 1, e)` with
`e` the Fault-tagged wrapping of the tree's error with the context
"could not set from actor after send", and the write of `msg.To` is not
attempted; (b) if the write of `msg.From` succeeds and the write of `msg.To`
fails, `Send` returns `(nil, 1, e)` with `e` the Fault-tagged wrapping with the
context "could not set to actor after send"; in both cases no code is
resolved and no method is dispatched. -/
theorem Send_persistence_fault {σ : Type} (T : Tree σ) (fromActor toActor : Actor)
    (msg : Message) (st : σ)
    (htr : (transferStep { transfer := transfer } fromActor toActor msg).err = none) :
    (∀ (e : GoError) (st₁ : σ),
      T.SetActor st msg.From
        (transferStep { transfer := transfer } fromActor toActor msg).fromActor = (some e, st₁) →
      (Send T fromActor toActor msg st).ret = none ∧
      (Send T fromActor toActor msg st).exitCode = 1 ∧
      (Send T fromActor toActor msg st).err
        = some (GoError.fault e "could not set from actor after send") ∧
      errors.IsFault (GoError.fault e "could not set from actor after send") = true ∧
      errors.ShouldRevert (GoError.fault e "could not set from actor after send") = false ∧
      (Send T fromActor toActor msg st).calls
        = transferLog fromActor toActor msg ++
          [Call.SetActor msg.From
            (transferStep { transfer := transfer } fromActor toActor msg).fromActor] ∧
      (∀ c : Cid, Call.GetBuiltinActorCode c ∉ (Send T fromActor toActor msg st).calls) ∧
      (∀ m : String, Call.Dispatch m ∉ (Send T fromActor toActor msg st).calls)) ∧
    (∀ (e : GoError) (st₁ st₂ : σ),
      T.SetActor st msg.From
        (transferStep { transfer := transfer } fromActor toActor msg).fromActor = (none, st₁) →
      T.SetActor st₁ msg.To
        (transferStep { transfer := transfer } fromActor toActor msg).toActor = (some e, st₂) →
      (Send T fromActor toActor msg st).ret = none ∧
      (Send T fromActor toActor msg st).exitCode = 1 ∧
      (Send T fromActor toActor msg st).err
        = some (GoError.fault e "could not set to actor after send") ∧
      errors.IsFault (GoError.fault e "could not set to actor after send") = true ∧
      errors.ShouldRevert (GoError.fault e "could not set to actor after send") = false ∧
      (Send T fromActor toActor msg st).calls
        = transferLog fromActor toActor msg ++
          [Call.SetActor msg.From
            (transferStep { transfer := transfer } fromActor toActor msg).fromActor] ++
          [Call.SetActor msg.To
            (transferStep { transfer := transfer } fromActor toActor msg).toActor] ∧
      (∀ c : Cid, Call.GetBuiltinActorCode c ∉ (Send T fromActor toActor msg st).calls) ∧
      (∀ m : String, Call.Dispatch m ∉ (Send T fromActor toActor msg st).calls)) := by
  constructor
  · intro e st₁ h1
    have hS : Send T fromActor toActor msg st = _ :=
      send_of_set_from_error T { transfer := transfer } fromActor toActor msg st st₁ e htr h1
    rw [hS]
    refine ⟨rfl, rfl, rfl, rfl, rfl, rfl, ?_, ?_⟩
    · intro c hmem
      simp only [List.mem_append, List.mem_singleton] at hmem
      rcases hmem with hmem | hmem
      · exact Call.noConfusion (transferLog_only_transfer _ _ _ _ hmem)
      · exact Call.noConfusion hmem
    · intro m hmem
      simp only [List.mem_append, List.mem_singleton] at hmem
      rcases hmem with hmem | hmem
      · exact Call.noConfusion (transferLog_only_transfer _ _ _ _ hmem)
      · exact Call.noConfusion hmem
  · intro e st₁ st₂ h1 h2
    have hS : Send T fromActor toActor msg st = _ :=
      send_of_set_to_error T { transfer := transfer } fromActor toActor msg st st₁ st₂ e
        htr h1 h2
    rw [hS]
    refine ⟨rfl, rfl, rfl, rfl, rfl, rfl, ?_, ?_⟩
    · intro c hmem
      simp only [List.mem_append, List.mem_singleton] at hmem
      rcases hmem with (hmem | hmem) | hmem
      · exact Call.noConfusion (transferLog_only_transfer _ _ _ _ hmem)
      · exact Call.noConfusion hmem
      · exact Call.noConfusion hmem
    · intro m hmem
      simp only [List.mem_append, List.mem_singleton] at hmem
      rcases hmem with (hmem | hmem) | hmem
      · exact Call.noConfusion (transferLog_only_transfer _ _ _ _ hmem)
      · exact Call.noConfusion hmem
      · exact Call.noConfusion hmem

/-- Witness of C9: a store that refuses writes at address 7 (the sender), and a
store that refuses writes at address 8 (the receiver). -/
theorem Send_persistence_fault_witness :
    ((Send (MemTree.tree MemTree.rejectingCode) ⟨1, some 100⟩ ⟨2, some 0⟩
        ⟨7, 8, "reject", some 30⟩ ⟨[], [7]⟩).err
        = some (GoError.fault (GoError.plain "store unavailable")
            "could not set from actor after send") ∧
      (Send (MemTree.tree MemTree.rejectingCode) ⟨1, some 100⟩ ⟨2, some 0⟩
        ⟨7, 8, "reject", some 30⟩ ⟨[], [7]⟩).calls
        = [Call.transfer ⟨1, some 100⟩ ⟨2, some 0⟩ (some 30), Call.SetActor 7 ⟨1, some 70⟩]) ∧
    ((Send (MemTree.tree MemTree.rejectingCode) ⟨1, some 100⟩ ⟨2, some 0⟩
        ⟨7, 8, "reject", some 30⟩ ⟨[], [8]⟩).err
        = some (GoError.fault (GoError.plain "store unavailable")
            "could not set to actor after send") ∧
      (Send (MemTree.tree MemTree.rejectingCode) ⟨1, some 100⟩ ⟨2, some 0⟩
        ⟨7, 8, "reject", some 30⟩ ⟨[], [8]⟩).calls
        = [Call.transfer ⟨1, some 100⟩ ⟨2, some 0⟩ (some 30), Call.SetActor 7 ⟨1, some 70⟩,
           Call.SetActor 8 ⟨2, some 30⟩]) :=
  have ha := (Send_persistence_fault (MemTree.tree MemTree.rejectingCode) ⟨1, some 100⟩
    ⟨2, some 0⟩ ⟨7, 8, "reject", some 30⟩ ⟨[], [7]⟩ rfl).1
    (GoError.plain "store unavailable") ⟨[], [7]⟩ rfl
  have hb := (Send_persistence_fault (MemTree.tree MemTree.rejectingCode) ⟨1, some 100⟩
    ⟨2, some 0⟩ ⟨7, 8, "reject", some 30⟩ ⟨[], [8]⟩ rfl).2
    (GoError.plain "store unavailable") ⟨[(7, ⟨1, some 70⟩)], [8]⟩ ⟨[(7, ⟨1, some 70⟩)], [8]⟩
    rfl rfl
  ⟨⟨ha.2.2.1, ha.2.2.2.2.2.1⟩, ⟨hb.2.2.1, hb.2.2.2.2.2.1⟩⟩

/-- C10 (transfer failure aborts `Send`): for a message with a non-nil value
that is negative or exceeds the sender's balance, the transfer returns an error
and `Send` returns nil bytes, exit code 1 and that same Revert-tagged error;
the only call made is the transfer (no write, no code resolution, no dispatch),
the tree is unchanged and both records are as they were. -/
theorem Send_transfer_failure {σ : Type} (T : Tree σ) (fromActor toActor : Actor)
    (msg : Message) (st : σ) (hv : msg.Value ≠ none)
    (hbad : TokenAmount.toInt msg.Value < 0 ∨
      TokenAmount.toInt fromActor.Balance < TokenAmount.toInt msg.Value) :
    ∃ e : GoError,
      (transfer fromActor toActor msg.Value).err = some e ∧
      (Send T fromActor toActor msg st).err = some e ∧
      errors.ShouldRevert e = true ∧ errors.IsFault e = false ∧
      (Send T fromActor toActor msg st).ret = none ∧
      (Send T fromActor toActor msg st).exitCode = 1 ∧
      (Send T fromActor toActor msg st).calls = [Call.transfer fromActor toActor msg.Value] ∧
      (Send T fromActor toActor msg st).state = st ∧
      (Send T fromActor toActor msg st).fromActor = fromActor ∧
      (Send T fromActor toActor msg st).toActor = toActor := by
  have hstep : transferStep { transfer := transfer } fromActor toActor msg
      = transfer fromActor toActor msg.Value := transferStep_some _ _ _ _ hv
  have herr : ∃ e, (transfer fromActor toActor msg.Value).err = some e := by
    by_cases hneg : TokenAmount.toInt msg.Value < 0
    · exact ⟨_, by rw [transfer_of_negative _ _ _ hneg]⟩
    · rcases hbad with h | h
      · exact absurd h hneg
      · exact ⟨_, by rw [transfer_of_insufficient _ _ _ (not_lt.mp hneg) h]⟩
  obtain ⟨e, he⟩ := herr
  have hS : Send T fromActor toActor msg st = _ :=
    send_of_transfer_error T { transfer := transfer } fromActor toActor msg st e
      (by rw [hstep]; exact he)
  have hframe := transfer_err_frame fromActor toActor msg.Value e he
  refine ⟨e, he, ?_, ?_, ?_, ?_, ?_, ?_, ?_, ?_, ?_⟩
  · rw [hS]
  · rcases transfer_err_cases fromActor toActor msg.Value e he with h | h <;> subst h <;> rfl
  · rcases transfer_err_cases fromActor toActor msg.Value e he with h | h <;> subst h <;> rfl
  · rw [hS]
  · rw [hS]
  · rw [hS]; simp [transferLog, hv]
  · rw [hS]
  · rw [hS, hstep]; exact hframe.1
  · rw [hS, hstep]; exact hframe.2

/-- Witness of C10: the value 130 exceeds the sender's balance 100; the tree
and both records stay as they were. -/
theorem Send_transfer_failure_witness :
    ∃ e : GoError,
      (transfer ⟨1, some 100⟩ ⟨2, none⟩ (some 130)).err = some e ∧
      (Send (MemTree.tree MemTree.rejectingCode) ⟨1, some 100⟩ ⟨2, none⟩
        ⟨7, 8, "reject", some 130⟩ ⟨[(7, ⟨1, some 100⟩)], []⟩).err = some e ∧
      errors.ShouldRevert e = true ∧ errors.IsFault e = false ∧
      (Send (MemTree.tree MemTree.rejectingCode) ⟨1, some 100⟩ ⟨2, none⟩
        ⟨7, 8, "reject", some 130⟩ ⟨[(7, ⟨1, some 100⟩)], []⟩).ret = none ∧
      (Send (MemTree.tree MemTree.rejectingCode) ⟨1, some 100⟩ ⟨2, none⟩
        ⟨7, 8, "reject", some 130⟩ ⟨[(7, ⟨1, some 100⟩)], []⟩).exitCode = 1 ∧
      (Send (MemTree.tree MemTree.rejectingCode) ⟨1, some 100⟩ ⟨2, none⟩
        ⟨7, 8, "reject", some 130⟩ ⟨[(7, ⟨1, some 100⟩)], []⟩).calls
        = [Call.transfer ⟨1, some 100⟩ ⟨2, none⟩ (some 130)] ∧
      (Send (MemTree.tree MemTree.rejectingCode) ⟨1, some 100⟩ ⟨2, none⟩
        ⟨7, 8, "reject", some 130⟩ ⟨[(7, ⟨1, some 100⟩)], []⟩).state
        = ⟨[(7, ⟨1, some 100⟩)], []⟩ ∧
      (Send (MemTree.tree MemTree.rejectingCode) ⟨1, some 100⟩ ⟨2, none⟩
        ⟨7, 8, "reject", some 130⟩ ⟨[(7, ⟨1, some 100⟩)], []⟩).fromActor = ⟨1, some 100⟩ ∧
      (Send (MemTree.tree MemTree.rejectingCode) ⟨1, some 100⟩ ⟨2, none⟩
        ⟨7, 8, "reject", some 130⟩ ⟨[(7, ⟨1, some 100⟩)], []⟩).toActor = ⟨2, none⟩ :=
  Send_transfer_failure (MemTree.tree MemTree.rejectingCode) ⟨1, some 100⟩ ⟨2, none⟩
    ⟨7, 8, "reject", some 130⟩ ⟨[(7, ⟨1, some 100⟩)], []⟩ (by decide) (by decide)

/-! ## Theorems: token supply -/

/-- Replacing the record stored at an address changes the supply by the
difference of the two balances. -/
theorem MemTree.supply_put_of_find (a : Address) (x y : Actor) (l : List (Address × Actor))
    (h : MemTree.find a l = some y) :
    MemTree.supply (MemTree.put a x l)
      = MemTree.supply l - TokenAmount.toInt y.Balance + TokenAmount.toInt x.Balance := by
  induction l with
  | nil => simp [MemTree.find] at h
  | cons p rest ih =>
    obtain ⟨b, z⟩ := p
    by_cases hb : b = a
    · simp only [MemTree.find, hb, if_true, Option.some.injEq] at h
      subst h
      simp only [MemTree.put, hb, if_true, MemTree.supply]
      omega
    · simp only [MemTree.find, hb, if_false] at h
      simp only [MemTree.put, hb, if_false, MemTree.supply, ih h]
      omega

/-- When the transfer step of `Send` succeeds, the sender's balance has gone
down and the receiver's balance has gone up by the value of the message, a nil
value counting as zero. -/
theorem transferStep_balances (fromActor toActor : Actor) (msg : Message)
    (htr : (transferStep { transfer := transfer } fromActor toActor msg).err = none) :
    TokenAmount.toInt (transferStep { transfer := transfer } fromActor toActor msg).fromActor.Balance
      = TokenAmount.toInt fromActor.Balance - TokenAmount.toInt msg.Value ∧
    TokenAmount.toInt (transferStep { transfer := transfer } fromActor toActor msg).toActor.Balance
      = TokenAmount.toInt toActor.Balance + TokenAmount.toInt msg.Value := by
  by_cases hv : msg.Value = none
  · rw [transferStep_nil _ _ _ _ hv, hv]
    simp [TokenAmount.toInt_none]
  · rw [transferStep_some _ _ _ _ hv] at htr ⊢
    have htr' : (transfer fromActor toActor msg.Value).err = none := htr
    show TokenAmount.toInt (transfer fromActor toActor msg.Value).fromActor.Balance = _ ∧
      TokenAmount.toInt (transfer fromActor toActor msg.Value).toActor.Balance = _
    by_cases hneg : TokenAmount.toInt msg.Value < 0
    · rw [transfer_of_negative _ _ _ hneg] at htr'
      simp at htr'
    · by_cases hlt : TokenAmount.toInt fromActor.Balance < TokenAmount.toInt msg.Value
      · rw [transfer_of_insufficient _ _ _ (not_lt.mp hneg) hlt] at htr'
        simp at htr'
      · rw [transfer_of_valid _ _ _ (not_lt.mp hneg) (not_lt.mp hlt)]
        simp [TokenAmount.toInt_some]

/-- A successful write to the in-memory tree stores the record with `put`. -/
theorem MemTree.setActor_ok (code : Cid → Except GoError (Executable MemTree))
    (s s₁ : MemTree) (a : Address) (x : Actor)
    (h : (MemTree.tree code).SetActor s a x = (none, s₁)) :
    s₁.actors = MemTree.put a x s.actors := by
  simp only [MemTree.tree] at h
  split at h
  · simp at h
  · simp only [Prod.mk.injEq, true_and] at h
    subst h
    rfl

/-- Once both writes have succeeded, `send` either dispatches a method or
returns with the tree as the two writes left it. -/
theorem send_state_of_persisted {σ : Type} (T : Tree σ) (deps : sendDeps)
    (fromActor toActor : Actor) (msg : Message) (st st₁ st₂ : σ)
    (htr : (transferStep deps fromActor toActor msg).err = none)
    (h1 : T.SetActor st msg.From (transferStep deps fromActor toActor msg).fromActor
      = (none, st₁))
    (h2 : T.SetActor st₁ msg.To (transferStep deps fromActor toActor msg).toActor
      = (none, st₂))
    (hnd : Call.Dispatch msg.Method ∉ (send T deps fromActor toActor msg st).calls) :
    (send T deps fromActor toActor msg st).state = st₂ := by
  by_cases hm : msg.Method = ""
  · rw [send_of_empty_method T deps fromActor toActor msg st st₁ st₂ htr h1 h2 hm]
  · cases hc : T.GetBuiltinActorCode st₂ (transferStep deps fromActor toActor msg).toActor.Code with
    | error e =>
      rw [send_of_code_error T deps fromActor toActor msg st st₁ st₂ e htr h1 h2 hm hc]
    | ok exe =>
      by_cases hx : msg.Method ∈ exe.Exports
      · rw [send_of_dispatch T deps fromActor toActor msg st st₁ st₂ exe htr h1 h2 hm hc hx]
          at hnd
        exact absurd (by simp) hnd
      · rw [send_of_missing_export T deps fromActor toActor msg st st₁ st₂ exe htr h1 h2 hm
          hc hx]

/-- C11, as stated, fails when `msg.From = msg.To`: the tree holds one actor,
at address 7, with balance 100; both records are the tree's record at that
address and the message sends 30 from 7 to 7.  `Send` completes the transfer
and both writes and returns `(nil, 0, nil)`; the total of the balances stored
in the tree is 100 before and 130 after. -/
theorem Send_supply_counterexample :
    MemTree.find 7 (MemTree.mk [(7, ⟨1, some 100⟩)] []).actors = some ⟨1, some 100⟩ ∧
    (Send (MemTree.tree MemTree.noCode) ⟨1, some 100⟩ ⟨1, some 100⟩ ⟨7, 7, "", some 30⟩
      ⟨[(7, ⟨1, some 100⟩)], []⟩).err = none ∧
    (Send (MemTree.tree MemTree.noCode) ⟨1, some 100⟩ ⟨1, some 100⟩ ⟨7, 7, "", some 30⟩
      ⟨[(7, ⟨1, some 100⟩)], []⟩).exitCode = 0 ∧
    MemTree.supply (MemTree.mk [(7, ⟨1, some 100⟩)] []).actors = 100 ∧
    MemTree.supply (Send (MemTree.tree MemTree.noCode) ⟨1, some 100⟩ ⟨1, some 100⟩
      ⟨7, 7, "", some 30⟩ ⟨[(7, ⟨1, some 100⟩)], []⟩).state.actors = 130 ∧
    MemTree.supply (Send (MemTree.tree MemTree.noCode) ⟨1, some 100⟩ ⟨1, some 100⟩
      ⟨7, 7, "", some 30⟩ ⟨[(7, ⟨1, some 100⟩)], []⟩).state.actors
      ≠ MemTree.supply (MemTree.mk [(7, ⟨1, some 100⟩)] []).actors := by
  decide

/-- C11 (token supply conservation across `Send`, amended): on an in-memory
tree, for a message with `msg.From` different from `msg.To` and records `from`,
`to` that are the tree's records at those two addresses, if the transfer step
and both writes succeed, then the total of all balances stored in the tree
after those steps equals the total before them; the balance at `msg.From` has
gone down by the value, the balance at `msg.To` has gone up by the value (a nil
value counting as zero), every other address holds what it held, and this is
the tree `Send` returns with unless it dispatches a method. -/
theorem Send_supply_conserved (code : Cid → Except GoError (Executable MemTree))
    (fromActor toActor : Actor) (msg : Message) (s s₁ s₂ : MemTree)
    (hne : msg.From ≠ msg.To)
    (hf : MemTree.find msg.From s.actors = some fromActor)
    (ht : MemTree.find msg.To s.actors = some toActor)
    (htr : (transferStep { transfer := transfer } fromActor toActor msg).err = none)
    (h1 : (MemTree.tree code).SetActor s msg.From
      (transferStep { transfer := transfer } fromActor toActor msg).fromActor = (none, s₁))
    (h2 : (MemTree.tree code).SetActor s₁ msg.To
      (transferStep { transfer := transfer } fromActor toActor msg).toActor = (none, s₂)) :
    MemTree.supply s₂.actors = MemTree.supply s.actors ∧
    MemTree.balanceAt msg.From s₂.actors
      = some (TokenAmount.toInt fromActor.Balance - TokenAmount.toInt msg.Value) ∧
    MemTree.balanceAt msg.To s₂.actors
      = some (TokenAmount.toInt toActor.Balance + TokenAmount.toInt msg.Value) ∧
    (∀ b : Address, b ≠ msg.From → b ≠ msg.To →
      MemTree.find b s₂.actors = MemTree.find b s.actors) ∧
    (Call.Dispatch msg.Method ∉ (Send (MemTree.tree code) fromActor toActor msg s).calls →
      (Send (MemTree.tree code) fromActor toActor msg s).state = s₂) := by
  have e1 := MemTree.setActor_ok code s s₁ _ _ h1
  have e2 := MemTree.setActor_ok code s₁ s₂ _ _ h2
  obtain ⟨hbf, hbt⟩ := transferStep_balances fromActor toActor msg htr
  have ht₁ : MemTree.find msg.To s₁.actors = some toActor := by
    rw [e1, MemTree.find_put_other _ _ _ _ (Ne.symm hne)]
    exact ht
  refine ⟨?_, ?_, ?_, ?_, ?_⟩
  · rw [e2, MemTree.supply_put_of_find _ _ _ _ ht₁, e1,
      MemTree.supply_put_of_find _ _ _ _ hf, hbf, hbt]
    omega
  · rw [MemTree.balanceAt, e2, MemTree.find_put_other _ _ _ _ hne, e1,
      MemTree.find_put_same, Option.map_some', hbf]
  · rw [MemTree.balanceAt, e2, MemTree.find_put_same, Option.map_some', hbt]
  · intro b hb1 hb2
    rw [e2, MemTree.find_put_other _ _ _ _ hb2, e1, MemTree.find_put_other _ _ _ _ hb1]
  · intro hnd
    exact send_state_of_persisted (MemTree.tree code) { transfer := transfer } fromActor
      toActor msg s s₁ s₂ htr h1 h2 hnd

/-- Witness of the amended C11: the tree holds 100 at address 7 and 5 at
address 8, and 30 goes from 7 to 8; the supply is 105 before and after. -/
theorem Send_supply_conserved_witness :
    MemTree.supply (MemTree.mk [(7, ⟨1, some 70⟩), (8, ⟨2, some 35⟩)] []).actors
      = MemTree.supply (MemTree.mk [(7, ⟨1, some 100⟩), (8, ⟨2, some 5⟩)] []).actors ∧
    (Send (MemTree.tree MemTree.noCode) ⟨1, some 100⟩ ⟨2, some 5⟩ ⟨7, 8, "", some 30⟩
      ⟨[(7, ⟨1, some 100⟩), (8, ⟨2, some 5⟩)], []⟩).state
      = ⟨[(7, ⟨1, some 70⟩), (8, ⟨2, some 35⟩)], []⟩ :=
  have h := Send_supply_conserved MemTree.noCode ⟨1, some 100⟩ ⟨2, some 5⟩
    ⟨7, 8, "", some 30⟩ ⟨[(7, ⟨1, some 100⟩), (8, ⟨2, some 5⟩)], []⟩
    ⟨[(7, ⟨1, some 70⟩), (8, ⟨2, some 5⟩)], []⟩
    ⟨[(7, ⟨1, some 70⟩), (8, ⟨2, some 35⟩)], []⟩
    (by decide) rfl rfl rfl rfl rfl
  ⟨h.1, h.2.2.2.2 (by decide)⟩

/-! ## Theorems: the later steps of `Send` -/

/-- Case analysis on the seven ways `send` returns: a property that holds of
the result on each path holds of the result of `send`. -/
theorem send_cases {σ : Type} (T : Tree σ) (deps : sendDeps) (fromActor toActor : Actor)
    (msg : Message) (st : σ) (P : SendResult σ → Prop)
    (p1 : ∀ e : GoError, (transferStep deps fromActor toActor msg).err = some e →
      P { ret := none, exitCode := 1, err := some e,
          fromActor := (transferStep deps fromActor toActor msg).fromActor,
          toActor := (transferStep deps fromActor toActor msg).toActor,
          state := st, calls := transferLog fromActor toActor msg })
    (p2 : ∀ (e : GoError) (st₁ : σ),
      (transferStep deps fromActor toActor msg).err = none →
      T.SetActor st msg.From (transferStep deps fromActor toActor msg).fromActor
        = (some e, st₁) →
      P { ret := none, exitCode := 1,
          err := some (errors.FaultErrorWrap e "could not set from actor after send"),
          fromActor := (transferStep deps fromActor toActor msg).fromActor,
          toActor := (transferStep deps fromActor toActor msg).toActor,
          state := st₁,
          calls := transferLog fromActor toActor msg ++
            [Call.SetActor msg.From (transferStep deps fromActor toActor msg).fromActor] })
    (p3 : ∀ (e : GoError) (st₁ st₂ : σ),
      (transferStep deps fromActor toActor msg).err = none →
      T.SetActor st msg.From (transferStep deps fromActor toActor msg).fromActor
        = (none, st₁) →
      T.SetActor st₁ msg.To (transferStep deps fromActor toActor msg).toActor
        = (some e, st₂) →
      P { ret := none, exitCode := 1,
          err := some (errors.FaultErrorWrap e "could not set to actor after send"),
          fromActor := (transferStep deps fromActor toActor msg).fromActor,
          toActor := (transferStep deps fromActor toActor msg).toActor,
          state := st₂,
          calls := transferLog fromActor toActor msg ++
            [Call.SetActor msg.From (transferStep deps fromActor toActor msg).fromActor] ++
            [Call.SetActor msg.To (transferStep deps fromActor toActor msg).toActor] })
    (p4 : ∀ (st₁ st₂ : σ),
      (transferStep deps fromActor toActor msg).err = none →
      T.SetActor st msg.From (transferStep deps fromActor toActor msg).fromActor
        = (none, st₁) →
      T.SetActor st₁ msg.To (transferStep deps fromActor toActor msg).toActor
        = (none, st₂) →
      msg.Method = "" →
      P { ret := none, exitCode := 0, err := none,
          fromActor := (transferStep deps fromActor toActor msg).fromActor,
          toActor := (transferStep deps fromActor toActor msg).toActor,
          state := st₂,
          calls := transferLog fromActor toActor msg ++
            [Call.SetActor msg.From (transferStep deps fromActor toActor msg).fromActor] ++
            [Call.SetActor msg.To (transferStep deps fromActor toActor msg).toActor] })
    (p5 : ∀ (e : GoError) (st₁ st₂ : σ),
      (transferStep deps fromActor toActor msg).err = none →
      T.SetActor st msg.From (transferStep deps fromActor toActor msg).fromActor
        = (none, st₁) →
      T.SetActor st₁ msg.To (transferStep deps fromActor toActor msg).toActor
        = (none, st₂) →
      msg.Method ≠ "" →
      T.GetBuiltinActorCode st₂ (transferStep deps fromActor toActor msg).toActor.Code
        = Except.error e →
      P { ret := none, exitCode := 1,
          err := some (errors.FaultErrorWrap e "unable to load code for To actor"),
          fromActor := (transferStep deps fromActor toActor msg).fromActor,
          toActor := (transferStep deps fromActor toActor msg).toActor,
          state := st₂,
          calls := transferLog fromActor toActor msg ++
            [Call.SetActor msg.From (transferStep deps fromActor toActor msg).fromActor] ++
            [Call.SetActor msg.To (transferStep deps fromActor toActor msg).toActor] ++
            [Call.GetBuiltinActorCode
              (transferStep deps fromActor toActor msg).toActor.Code] })
    (p6 : ∀ (exe : Executable σ) (st₁ st₂ : σ),
      (transferStep deps fromActor toActor msg).err = none →
      T.SetActor st msg.From (transferStep deps fromActor toActor msg).fromActor
        = (none, st₁) →
      T.SetActor st₁ msg.To (transferStep deps fromActor toActor msg).toActor
        = (none, st₂) →
      msg.Method ≠ "" →
      T.GetBuiltinActorCode st₂ (transferStep deps fromActor toActor msg).toActor.Code
        = Except.ok exe →
      msg.Method ∉ exe.Exports →
      P { ret := none, exitCode := 1,
          err := some (errors.NewRevertErrorf "missing export: " msg.Method),
          fromActor := (transferStep deps fromActor toActor msg).fromActor,
          toActor := (transferStep deps fromActor toActor msg).toActor,
          state := st₂,
          calls := transferLog fromActor toActor msg ++
            [Call.SetActor msg.From (transferStep deps fromActor toActor msg).fromActor] ++
            [Call.SetActor msg.To (transferStep deps fromActor toActor msg).toActor] ++
            [Call.GetBuiltinActorCode
              (transferStep deps fromActor toActor msg).toActor.Code] })
    (p7 : ∀ (exe : Executable σ) (st₁ st₂ : σ) (out : Outcome σ),
      (transferStep deps fromActor toActor msg).err = none →
      T.SetActor st msg.From (transferStep deps fromActor toActor msg).fromActor
        = (none, st₁) →
      T.SetActor st₁ msg.To (transferStep deps fromActor toActor msg).toActor
        = (none, st₂) →
      msg.Method ≠ "" →
      T.GetBuiltinActorCode st₂ (transferStep deps fromActor toActor msg).toActor.Code
        = Except.ok exe →
      msg.Method ∈ exe.Exports →
      out = exe.MakeTypedExport msg.Method
        { fromActor := (transferStep deps fromActor toActor msg).fromActor,
          toActor := (transferStep deps fromActor toActor msg).toActor,
          message := msg, state := st₂ } →
      P { ret := out.ret, exitCode := out.exitCode, err := out.err,
          fromActor := out.fromActor, toActor := out.toActor, state := out.state,
          calls := transferLog fromActor toActor msg ++
            [Call.SetActor msg.From (transferStep deps fromActor toActor msg).fromActor] ++
            [Call.SetActor msg.To (transferStep deps fromActor toActor msg).toActor] ++
            [Call.GetBuiltinActorCode
              (transferStep deps fromActor toActor msg).toActor.Code] ++
            [Call.Dispatch msg.Method] }) :
    P (send T deps fromActor toActor msg st) := by
  cases htr : (transferStep deps fromActor toActor msg).err with
  | some e =>
    rw [send_of_transfer_error T deps fromActor toActor msg st e htr]
    exact p1 e htr
  | none =>
    rcases h1 : T.SetActor st msg.From (transferStep deps fromActor toActor msg).fromActor
      with ⟨_ | e₁, st₁⟩
    swap
    · rw [send_of_set_from_error T deps fromActor toActor msg st st₁ e₁ htr h1]
      exact p2 e₁ st₁ htr h1
    rcases h2 : T.SetActor st₁ msg.To (transferStep deps fromActor toActor msg).toActor
      with ⟨_ | e₂, st₂⟩
    swap
    · rw [send_of_set_to_error T deps fromActor toActor msg st st₁ st₂ e₂ htr h1 h2]
      exact p3 e₂ st₁ st₂ htr h1 h2
    by_cases hm : msg.Method = ""
    · rw [send_of_empty_method T deps fromActor toActor msg st st₁ st₂ htr h1 h2 hm]
      exact p4 st₁ st₂ htr h1 h2 hm
    cases hc : T.GetBuiltinActorCode st₂
      (transferStep deps fromActor toActor msg).toActor.Code with
    | error e₃ =>
      rw [send_of_code_error T deps fromActor toActor msg st st₁ st₂ e₃ htr h1 h2 hm hc]
      exact p5 e₃ st₁ st₂ htr h1 h2 hm hc
    | ok exe =>
      by_cases hx : msg.Method ∈ exe.Exports
      · rw [send_of_dispatch T deps fromActor toActor msg st st₁ st₂ exe htr h1 h2 hm hc hx]
        exact p7 exe st₁ st₂ _ htr h1 h2 hm hc hx rfl
      · rw [send_of_missing_export T deps fromActor toActor msg st st₁ st₂ exe htr h1 h2 hm
          hc hx]
        exact p6 exe st₁ st₂ htr h1 h2 hm hc hx

/-- The log of a run of `send` that stops before the code resolution holds no
call of the resolver and no dispatch. -/
theorem no_dispatch_in_prefix (fromActor toActor : Actor) (msg : Message)
    (rest : List Call) (m : String)
    (hrest : ∀ c ∈ rest, (∃ a x, c = Call.SetActor a x) ∨ (∃ k, c = Call.GetBuiltinActorCode k)) :
    Call.Dispatch m ∉ transferLog fromActor toActor msg ++ rest := by
  intro hmem
  rcases List.mem_append.mp hmem with h | h
  · exact Call.noConfusion (transferLog_only_transfer _ _ _ _ h)
  · rcases hrest _ h with ⟨a, x, hc⟩ | ⟨k, hc⟩ <;> exact Call.noConfusion hc

/-- C13, as stated, fails when `msg.From = msg.To`: the actor at address 7
holds 100 and sends 30 to itself with the method `"m"`, on a tree without actor
code.  `Send` returns the Fault error of the code resolution, and the tree
holds at address 7 the receiver's record (130): the persisted sender's record
(70) is not in the tree. -/
theorem Send_code_resolution_counterexample :
    (Send (MemTree.tree MemTree.noCode) ⟨1, some 100⟩ ⟨1, some 100⟩ ⟨7, 7, "m", some 30⟩
      ⟨[(7, ⟨1, some 100⟩)], []⟩).err
      = some (GoError.fault (GoError.plain "unknown actor code")
          "unable to load code for To actor") ∧
    (Send (MemTree.tree MemTree.noCode) ⟨1, some 100⟩ ⟨1, some 100⟩ ⟨7, 7, "m", some 30⟩
      ⟨[(7, ⟨1, some 100⟩)], []⟩).calls
      = [Call.transfer ⟨1, some 100⟩ ⟨1, some 100⟩ (some 30),
         Call.SetActor 7 ⟨1, some 70⟩, Call.SetActor 7 ⟨1, some 130⟩,
         Call.GetBuiltinActorCode 1] ∧
    (Send (MemTree.tree MemTree.noCode) ⟨1, some 100⟩ ⟨1, some 100⟩ ⟨7, 7, "m", some 30⟩
      ⟨[(7, ⟨1, some 100⟩)], []⟩).state = ⟨[(7, ⟨1, some 130⟩)], []⟩ ∧
    MemTree.find 7 (Send (MemTree.tree MemTree.noCode) ⟨1, some 100⟩ ⟨1, some 100⟩
      ⟨7, 7, "m", some 30⟩ ⟨[(7, ⟨1, some 100⟩)], []⟩).state.actors
      ≠ some ⟨1, some 70⟩ := by
  decide

/-- C13 (code resolution failure, amended): for a message with a non-empty
method, when the transfer (if any) and both writes succeed and
`GetBuiltinActorCode(to.Code)` fails, `Send` returns nil bytes, exit code 1 and
the Fault-tagged wrapping of the resolver's error, dispatches nothing, and
returns with the tree as the two writes left it: on a tree that stores what is
written to it, it holds at `msg.To` the persisted receiver's record and, when
`msg.From` differs from `msg.To`, at `msg.From` the persisted sender's
record. -/
theorem Send_code_resolution_failure {σ : Type} (T : Tree σ) (hT : T.Lawful)
    (fromActor toActor : Actor) (msg : Message) (st st₁ st₂ : σ) (e : GoError)
    (hval : msg.Value = none ∨ (0 ≤ TokenAmount.toInt msg.Value ∧
      TokenAmount.toInt msg.Value ≤ TokenAmount.toInt fromActor.Balance))
    (h1 : T.SetActor st msg.From
      (transferStep { transfer := transfer } fromActor toActor msg).fromActor = (none, st₁))
    (h2 : T.SetActor st₁ msg.To
      (transferStep { transfer := transfer } fromActor toActor msg).toActor = (none, st₂))
    (hm : msg.Method ≠ "")
    (hc : T.GetBuiltinActorCode st₂ toActor.Code = Except.error e) :
    (Send T fromActor toActor msg st).ret = none ∧
    (Send T fromActor toActor msg st).exitCode = 1 ∧
    (Send T fromActor toActor msg st).err
      = some (GoError.fault e "unable to load code for To actor") ∧
    errors.IsFault (GoError.fault e "unable to load code for To actor") = true ∧
    errors.ShouldRevert (GoError.fault e "unable to load code for To actor") = false ∧
    (∀ m : String, Call.Dispatch m ∉ (Send T fromActor toActor msg st).calls) ∧
    (Send T fromActor toActor msg st).state = st₂ ∧
    T.GetActor (Send T fromActor toActor msg st).state msg.To
      = Except.ok (transferStep { transfer := transfer } fromActor toActor msg).toActor ∧
    (msg.From ≠ msg.To →
      T.GetActor (Send T fromActor toActor msg st).state msg.From
        = Except.ok (transferStep { transfer := transfer } fromActor toActor msg).fromActor) := by
  have htr := transferStep_ok fromActor toActor msg hval
  rw [← transferStep_toActor_code fromActor toActor msg] at hc
  have hS : Send T fromActor toActor msg st = _ :=
    send_of_code_error T { transfer := transfer } fromActor toActor msg st st₁ st₂ e
      htr h1 h2 hm hc
  rw [hS]
  refine ⟨rfl, rfl, rfl, rfl, rfl, ?_, rfl, ?_, ?_⟩
  · intro m
    simp only [List.append_assoc]
    apply no_dispatch_in_prefix
    intro c hmem
    simp only [List.mem_append, List.mem_singleton] at hmem
    rcases hmem with h | h | h
    · exact Or.inl ⟨_, _, h⟩
    · exact Or.inl ⟨_, _, h⟩
    · exact Or.inr ⟨_, h⟩
  · exact hT.get_set_same st₁ st₂ msg.To _ h2
  · intro hdiff
    show T.GetActor st₂ msg.From = _
    rw [hT.get_set_other st₁ st₂ msg.To msg.From _ h2 hdiff]
    exact hT.get_set_same st st₁ msg.From _ h1

/-- Witness of the amended C13: 30 goes from address 7 to address 8 with the
method `"m"` on a tree without actor code; the Fault error is returned and the
tree holds 70 and 30. -/
theorem Send_code_resolution_failure_witness :
    (Send (MemTree.tree MemTree.noCode) ⟨1, some 100⟩ ⟨2, none⟩ ⟨7, 8, "m", some 30⟩
      ⟨[], []⟩).err
      = some (GoError.fault (GoError.plain "unknown actor code")
          "unable to load code for To actor") ∧
    (Send (MemTree.tree MemTree.noCode) ⟨1, some 100⟩ ⟨2, none⟩ ⟨7, 8, "m", some 30⟩
      ⟨[], []⟩).exitCode = 1 ∧
    (MemTree.tree MemTree.noCode).GetActor
      (Send (MemTree.tree MemTree.noCode) ⟨1, some 100⟩ ⟨2, none⟩ ⟨7, 8, "m", some 30⟩
        ⟨[], []⟩).state 8 = Except.ok ⟨2, some 30⟩ ∧
    (MemTree.tree MemTree.noCode).GetActor
      (Send (MemTree.tree MemTree.noCode) ⟨1, some 100⟩ ⟨2, none⟩ ⟨7, 8, "m", some 30⟩
        ⟨[], []⟩).state 7 = Except.ok ⟨1, some 70⟩ :=
  have h := Send_code_resolution_failure (MemTree.tree MemTree.noCode) (MemTree.tree_lawful _)
    ⟨1, some 100⟩ ⟨2, none⟩ ⟨7, 8, "m", some 30⟩ ⟨[], []⟩
    ⟨[(7, ⟨1, some 70⟩)], []⟩ ⟨[(7, ⟨1, some 70⟩), (8, ⟨2, some 30⟩)], []⟩
    (GoError.plain "unknown actor code")
    (Or.inr ⟨by decide, by decide⟩) rfl rfl (by decide) rfl
  ⟨h.2.2.1, h.2.1, h.2.2.2.2.2.2.2.1, h.2.2.2.2.2.2.2.2 (by decide)⟩

/-- C14 (dispatch pass-through): for a message whose non-empty method is among
the exports of the executable resolved for `to.Code`, when the transfer (if
any), both writes and the code resolution succeed, the result of `Send` is
exactly the result of the executable's exported method `msg.Method` invoked on
the VM context of `(from, to, msg, tree)` as they are at dispatch: bytes, exit
code and error are returned unchanged, and the dispatch is the last call
made. -/
theorem Send_dispatch_passthrough {σ : Type} (T : Tree σ)
    (fromActor toActor : Actor) (msg : Message) (st st₁ st₂ : σ) (exe : Executable σ)
    (hval : msg.Value = none ∨ (0 ≤ TokenAmount.toInt msg.Value ∧
      TokenAmount.toInt msg.Value ≤ TokenAmount.toInt fromActor.Balance))
    (h1 : T.SetActor st msg.From
      (transferStep { transfer := transfer } fromActor toActor msg).fromActor = (none, st₁))
    (h2 : T.SetActor st₁ msg.To
      (transferStep { transfer := transfer } fromActor toActor msg).toActor = (none, st₂))
    (hm : msg.Method ≠ "")
    (hc : T.GetBuiltinActorCode st₂ toActor.Code = Except.ok exe)
    (hx : msg.Method ∈ exe.Exports) :
    (Send T fromActor toActor msg st).ret
      = (exe.MakeTypedExport msg.Method
          { fromActor := (transferStep { transfer := transfer } fromActor toActor msg).fromActor,
            toActor := (transferStep { transfer := transfer } fromActor toActor msg).toActor,
            message := msg, state := st₂ }).ret ∧
    (Send T fromActor toActor msg st).exitCode
      = (exe.MakeTypedExport msg.Method
          { fromActor := (transferStep { transfer := transfer } fromActor toActor msg).fromActor,
            toActor := (transferStep { transfer := transfer } fromActor toActor msg).toActor,
            message := msg, state := st₂ }).exitCode ∧
    (Send T fromActor toActor msg st).err
      = (exe.MakeTypedExport msg.Method
          { fromActor := (transferStep { transfer := transfer } fromActor toActor msg).fromActor,
            toActor := (transferStep { transfer := transfer } fromActor toActor msg).toActor,
            message := msg, state := st₂ }).err ∧
    (Send T fromActor toActor msg st).state
      = (exe.MakeTypedExport msg.Method
          { fromActor := (transferStep { transfer := transfer } fromActor toActor msg).fromActor,
            toActor := (transferStep { transfer := transfer } fromActor toActor msg).toActor,
            message := msg, state := st₂ }).state ∧
    (Send T fromActor toActor msg st).calls
      = transferLog fromActor toActor msg ++
        [Call.SetActor msg.From
          (transferStep { transfer := transfer } fromActor toActor msg).fromActor] ++
        [Call.SetActor msg.To
          (transferStep { transfer := transfer } fromActor toActor msg).toActor] ++
        [Call.GetBuiltinActorCode toActor.Code] ++
        [Call.Dispatch msg.Method] := by
  have htr := transferStep_ok fromActor toActor msg hval
  have hcode := transferStep_toActor_code fromActor toActor msg
  rw [← hcode] at hc
  have hS : Send T fromActor toActor msg st = _ :=
    send_of_dispatch T { transfer := transfer } fromActor toActor msg st st₁ st₂ exe
      htr h1 h2 hm hc hx
  rw [hS]
  refine ⟨rfl, rfl, rfl, rfl, ?_⟩
  simp only [hcode]

/-- Witness of C14: the method `"answer"` returns the bytes `[42]` with exit
code 0 and no error, and so does `Send`. -/
theorem Send_dispatch_passthrough_witness :
    (Send (MemTree.tree MemTree.answeringCode) ⟨1, some 100⟩ ⟨2, none⟩
      ⟨7, 8, "answer", some 30⟩ ⟨[], []⟩).ret = some [42] ∧
    (Send (MemTree.tree MemTree.answeringCode) ⟨1, some 100⟩ ⟨2, none⟩
      ⟨7, 8, "answer", some 30⟩ ⟨[], []⟩).exitCode = 0 ∧
    (Send (MemTree.tree MemTree.answeringCode) ⟨1, some 100⟩ ⟨2, none⟩
      ⟨7, 8, "answer", some 30⟩ ⟨[], []⟩).err = none :=
  have h := Send_dispatch_passthrough (MemTree.tree MemTree.answeringCode)
    ⟨1, some 100⟩ ⟨2, none⟩ ⟨7, 8, "answer", some 30⟩ ⟨[], []⟩
    ⟨[(7, ⟨1, some 70⟩)], []⟩ ⟨[(7, ⟨1, some 70⟩), (8, ⟨2, some 30⟩)], []⟩
    { Exports := ["answer"], MakeTypedExport := fun _ => MemTree.answeringMethod }
    (Or.inr ⟨by decide, by decide⟩) rfl rfl (by decide) rfl (by decide)
  ⟨h.1, h.2.1, h.2.2.1⟩

/-- C15 (exit code of the explicit steps): for every run of `Send` that returns
without dispatching a method, the exit code is 1 exactly when the returned
error is non-nil and 0 exactly when it is nil; and exit code 0 with a nil error
is returned there only by the empty-method short circuit, after the writes of
both actors have succeeded. -/
theorem Send_exit_code {σ : Type} (T : Tree σ) (fromActor toActor : Actor)
    (msg : Message) (st : σ)
    (hnd : Call.Dispatch msg.Method ∉ (Send T fromActor toActor msg st).calls) :
    ((Send T fromActor toActor msg st).exitCode = 1 ↔
      (Send T fromActor toActor msg st).err ≠ none) ∧
    ((Send T fromActor toActor msg st).exitCode = 0 ↔
      (Send T fromActor toActor msg st).err = none) ∧
    ((Send T fromActor toActor msg st).exitCode = 0 →
      msg.Method = "" ∧
      ∃ st₁ : σ,
        T.SetActor st msg.From
          (transferStep { transfer := transfer } fromActor toActor msg).fromActor
            = (none, st₁) ∧
        T.SetActor st₁ msg.To
          (transferStep { transfer := transfer } fromActor toActor msg).toActor
            = (none, (Send T fromActor toActor msg st).state) ∧
        (Send T fromActor toActor msg st).calls
          = transferLog fromActor toActor msg ++
            [Call.SetActor msg.From
              (transferStep { transfer := transfer } fromActor toActor msg).fromActor] ++
            [Call.SetActor msg.To
              (transferStep { transfer := transfer } fromActor toActor msg).toActor]) := by
  revert hnd
  unfold Send
  apply send_cases T { transfer := transfer } fromActor toActor msg st
    (fun r => Call.Dispatch msg.Method ∉ r.calls →
      (r.exitCode = 1 ↔ r.err ≠ none) ∧ (r.exitCode = 0 ↔ r.err = none) ∧
      (r.exitCode = 0 →
        msg.Method = "" ∧
        ∃ st₁ : σ,
          T.SetActor st msg.From
            (transferStep { transfer := transfer } fromActor toActor msg).fromActor
              = (none, st₁) ∧
          T.SetActor st₁ msg.To
            (transferStep { transfer := transfer } fromActor toActor msg).toActor
              = (none, r.state) ∧
          r.calls
            = transferLog fromActor toActor msg ++
              [Call.SetActor msg.From
                (transferStep { transfer := transfer } fromActor toActor msg).fromActor] ++
              [Call.SetActor msg.To
                (transferStep { transfer := transfer } fromActor toActor msg).toActor]))
  · intro e _ _; simp
  · intro e st₁ _ _ _; simp
  · intro e st₁ st₂ _ _ _ _; simp
  · intro st₁ st₂ _ h1 h2 hm _
    refine ⟨by simp, by simp, fun _ => ⟨hm, st₁, h1, h2, rfl⟩⟩
  · intro e st₁ st₂ _ _ _ _ _ _; simp
  · intro exe st₁ st₂ _ _ _ _ _ _ _; simp
  · intro exe st₁ st₂ out _ _ _ _ _ _ _ hnd
    exact absurd (by simp) hnd

/-- Witness of C15: a pure transfer returns exit code 0 with a nil error, and a
transfer beyond the balance returns exit code 1 with a non-nil error. -/
theorem Send_exit_code_witness :
    (((Send (MemTree.tree MemTree.noCode) ⟨1, some 100⟩ ⟨2, none⟩ ⟨7, 8, "", some 30⟩
        ⟨[], []⟩).exitCode = 0 ↔
      (Send (MemTree.tree MemTree.noCode) ⟨1, some 100⟩ ⟨2, none⟩ ⟨7, 8, "", some 30⟩
        ⟨[], []⟩).err = none) ∧
      (Send (MemTree.tree MemTree.noCode) ⟨1, some 100⟩ ⟨2, none⟩ ⟨7, 8, "", some 30⟩
        ⟨[], []⟩).exitCode = 0) ∧
    (((Send (MemTree.tree MemTree.noCode) ⟨1, some 100⟩ ⟨2, none⟩ ⟨7, 8, "", some 130⟩
        ⟨[], []⟩).exitCode = 1 ↔
      (Send (MemTree.tree MemTree.noCode) ⟨1, some 100⟩ ⟨2, none⟩ ⟨7, 8, "", some 130⟩
        ⟨[], []⟩).err ≠ none) ∧
      (Send (MemTree.tree MemTree.noCode) ⟨1, some 100⟩ ⟨2, none⟩ ⟨7, 8, "", some 130⟩
        ⟨[], []⟩).exitCode = 1) :=
  ⟨⟨(Send_exit_code (MemTree.tree MemTree.noCode) ⟨1, some 100⟩ ⟨2, none⟩
      ⟨7, 8, "", some 30⟩ ⟨[], []⟩ (by decide)).2.1, rfl⟩,
   ⟨(Send_exit_code (MemTree.tree MemTree.noCode) ⟨1, some 100⟩ ⟨2, none⟩
      ⟨7, 8, "", some 130⟩ ⟨[], []⟩ (by decide)).1, rfl⟩⟩

/-- C17 (no value, no transfer): for a message with a nil value, `Send` does
not invoke the transfer step: its result is the same whatever transfer function
is injected and its log holds no call of `transfer`; every record written to
the tree is `from` at `msg.From` or `to` at `msg.To`, exactly as they were on
entry (balance, nil staying nil, and code); and with an empty method and both
writes succeeding the result is `(nil, 0, nil)`. -/
theorem Send_no_value {σ : Type} (T : Tree σ) (fromActor toActor : Actor)
    (msg : Message) (st : σ) (hv : msg.Value = none) :
    (∀ deps : sendDeps,
      send T deps fromActor toActor msg st = Send T fromActor toActor msg st) ∧
    (∀ (f t : Actor) (a : TokenAmount),
      Call.transfer f t a ∉ (Send T fromActor toActor msg st).calls) ∧
    (∀ (a : Address) (x : Actor), Call.SetActor a x ∈ (Send T fromActor toActor msg st).calls →
      (a = msg.From ∧ x = fromActor) ∨ (a = msg.To ∧ x = toActor)) ∧
    (∀ st₁ st₂ : σ, msg.Method = "" →
      T.SetActor st msg.From fromActor = (none, st₁) →
      T.SetActor st₁ msg.To toActor = (none, st₂) →
      (Send T fromActor toActor msg st).ret = none ∧
      (Send T fromActor toActor msg st).exitCode = 0 ∧
      (Send T fromActor toActor msg st).err = none ∧
      (Send T fromActor toActor msg st).state = st₂ ∧
      (Send T fromActor toActor msg st).calls
        = [Call.SetActor msg.From fromActor, Call.SetActor msg.To toActor]) := by
  have hstep : ∀ deps : sendDeps, transferStep deps fromActor toActor msg
      = { err := none, fromActor := fromActor, toActor := toActor } :=
    fun deps => transferStep_nil deps fromActor toActor msg hv
  have hlog : transferLog fromActor toActor msg = [] := by simp [transferLog, hv]
  refine ⟨?_, ?_, ?_, ?_⟩
  · intro deps
    unfold Send send
    simp only [hstep]
  · intro f t a
    unfold Send
    apply send_cases T { transfer := transfer } fromActor toActor msg st
      (fun r => Call.transfer f t a ∉ r.calls)
    · intro e he
      rw [hstep] at he
      simp at he
    · intro e st₁ _ _; simp [hlog]
    · intro e st₁ st₂ _ _ _; simp [hlog]
    · intro st₁ st₂ _ _ _ _; simp [hlog]
    · intro e st₁ st₂ _ _ _ _ _; simp [hlog]
    · intro exe st₁ st₂ _ _ _ _ _ _; simp [hlog]
    · intro exe st₁ st₂ out _ _ _ _ _ _ _; simp [hlog]
  · intro a x
    unfold Send
    apply send_cases T { transfer := transfer } fromActor toActor msg st
      (fun r => Call.SetActor a x ∈ r.calls →
        (a = msg.From ∧ x = fromActor) ∨ (a = msg.To ∧ x = toActor))
    · intro e he
      rw [hstep] at he
      simp at he
    · intro e st₁ _ _; simp only [hlog, hstep]; intro h; simp at h; tauto
    · intro e st₁ st₂ _ _ _; simp only [hlog, hstep]; intro h; simp at h; tauto
    · intro st₁ st₂ _ _ _ _; simp only [hlog, hstep]; intro h; simp at h; tauto
    · intro e st₁ st₂ _ _ _ _ _; simp only [hlog, hstep]; intro h; simp at h; tauto
    · intro exe st₁ st₂ _ _ _ _ _ _; simp only [hlog, hstep]; intro h; simp at h; tauto
    · intro exe st₁ st₂ out _ _ _ _ _ _ _; simp only [hlog, hstep]; intro h; simp at h; tauto
  · intro st₁ st₂ hm h1 h2
    have hS : Send T fromActor toActor msg st = _ :=
      send_of_empty_method T { transfer := transfer } fromActor toActor msg st st₁ st₂
        (by rw [hstep]) (by rw [hstep]; exact h1) (by rw [hstep]; exact h2) hm
    rw [hS, hstep, hlog]
    exact ⟨rfl, rfl, rfl, rfl, rfl⟩

/-- Witness of C17: a message without value and without method between a
sender with balance 100 and a receiver with a nil balance; both records are
written as they were. -/
theorem Send_no_value_witness :
    (Send (MemTree.tree MemTree.noCode) ⟨1, some 100⟩ ⟨2, none⟩ ⟨7, 8, "", none⟩
      ⟨[], []⟩).ret = none ∧
    (Send (MemTree.tree MemTree.noCode) ⟨1, some 100⟩ ⟨2, none⟩ ⟨7, 8, "", none⟩
      ⟨[], []⟩).exitCode = 0 ∧
    (Send (MemTree.tree MemTree.noCode) ⟨1, some 100⟩ ⟨2, none⟩ ⟨7, 8, "", none⟩
      ⟨[], []⟩).err = none ∧
    (Send (MemTree.tree MemTree.noCode) ⟨1, some 100⟩ ⟨2, none⟩ ⟨7, 8, "", none⟩
      ⟨[], []⟩).state = ⟨[(7, ⟨1, some 100⟩), (8, ⟨2, none⟩)], []⟩ ∧
    (Send (MemTree.tree MemTree.noCode) ⟨1, some 100⟩ ⟨2, none⟩ ⟨7, 8, "", none⟩
      ⟨[], []⟩).calls = [Call.SetActor 7 ⟨1, some 100⟩, Call.SetActor 8 ⟨2, none⟩] :=
  (Send_no_value (MemTree.tree MemTree.noCode) ⟨1, some 100⟩ ⟨2, none⟩ ⟨7, 8, "", none⟩
    ⟨[], []⟩ rfl).2.2.2 ⟨[(7, ⟨1, some 100⟩)], []⟩
    ⟨[(7, ⟨1, some 100⟩), (8, ⟨2, none⟩)], []⟩ rfl rfl rfl

/-! ## Theorems: `Uint64` -/

/-- Every byte written by the LEB128 encoder is below 256. -/
theorem leb128.FromUInt64.loop_lt (fuel n : Nat) :
    ∀ b ∈ leb128.FromUInt64.loop fuel n, b < 256 := by
  induction fuel generalizing n with
  | zero => simp [leb128.FromUInt64.loop]
  | succ fuel ih =>
    intro b hb
    unfold leb128.FromUInt64.loop at hb
    split_ifs at hb
    · simp only [List.mem_singleton] at hb
      omega
    · simp only [List.mem_cons] at hb
      rcases hb with hb | hb
      · omega
      · exact ih _ b hb

/-- The LEB128 decoder, started at any shift on any partial result, reads back
what the encoder wrote, when the fuel covers the value and the result fits 64
bits. -/
theorem leb128.ToUInt64.loop_FromUInt64 (fuel : Nat) :
    ∀ (n shift result : Nat), 0 < fuel → n < 128 ^ fuel →
      result + n * 2 ^ shift < 2 ^ 64 →
      leb128.ToUInt64.loop (leb128.FromUInt64.loop fuel n) shift result
        = some (result + n * 2 ^ shift) := by
  induction fuel with
  | zero => intro n shift result h; omega
  | succ fuel ih =>
    intro n shift result _ hn hfit
    obtain ⟨q, r, hqr, hr⟩ : ∃ q r, n = 128 * q + r ∧ r < 128 :=
      ⟨n / 128, n % 128, (Nat.div_add_mod n 128).symm, Nat.mod_lt _ (by decide)⟩
    subst hqr
    have hdiv : (128 * q + r) / 128 = q := by omega
    have hmod : (128 * q + r) % 128 = r := by omega
    have hsplit : (128 * q + r) * 2 ^ shift = r * 2 ^ shift + q * 2 ^ (shift + 7) := by
      rw [pow_add]; ring
    unfold leb128.FromUInt64.loop
    rw [hdiv, hmod]
    by_cases hq : q = 0
    · subst hq
      simp only [if_true]
      unfold leb128.ToUInt64.loop
      have h1 : r / 128 % 2 = 0 := by omega
      have h2 : r % 128 = r := by omega
      simp only [h1, h2, if_true, Nat.mul_zero, Nat.zero_add] at hfit ⊢
      rw [Nat.mod_eq_of_lt hfit]
    · simp only [hq, if_false]
      unfold leb128.ToUInt64.loop
      have h1 : (r + 128) / 128 % 2 ≠ 0 := by omega
      have h2 : (r + 128) % 128 = r := by omega
      have hle : result + r * 2 ^ shift < 2 ^ 64 := by
        rw [hsplit] at hfit
        omega
      simp only [h1, h2, if_false]
      rw [Nat.mod_eq_of_lt hle]
      have hfuel : 0 < fuel := by
        rcases Nat.eq_zero_or_pos fuel with h0 | h0
        · subst h0
          simp only [Nat.zero_add, pow_one] at hn
          omega
        · exact h0
      have hq' : q < 128 ^ fuel := by
        rw [pow_succ] at hn
        omega
      rw [ih q (shift + 7) (result + r * 2 ^ shift) hfuel hq' (by rw [hsplit] at hfit; omega)]
      rw [hsplit]
      congr 1
      omega

/-- LEB128 round trip: decoding the encoding of a 64-bit value gives the value
back. -/
theorem leb128.ToUInt64_FromUInt64 (u : Nat) (hu : u < 2 ^ 64) :
    leb128.ToUInt64 (leb128.FromUInt64 u) = some u := by
  unfold leb128.ToUInt64 leb128.FromUInt64
  rw [Nat.mod_eq_of_lt hu]
  have h := leb128.ToUInt64.loop_FromUInt64 10 u 0 0 (by decide)
    (lt_trans hu (by norm_num)) (by simpa using hu)
  simpa using h

/-- The character of a six-bit group decodes to that group, and is neither the
padding, nor the double quote, nor a line break. -/
theorem base64.enc6_spec :
    ∀ i, i < 64 → base64.dec6 (base64.enc6 i) = some i ∧ base64.enc6 i ≠ 61 ∧
      base64.enc6 i ≠ 34 ∧ base64.enc6 i ≠ 13 ∧ base64.enc6 i ≠ 10 := by
  decide

/-- The character of a six-bit group is in the alphabet. -/
theorem base64.enc6_mem : ∀ i, i < 64 → base64.enc6 i ∈ base64.encodeStd := by
  decide

/-- A character of the base64 encoding of bytes is in the alphabet or is the
padding, and is neither the double quote nor a line break. -/
theorem base64.EncodeToString_chars :
    ∀ (bs : Bytes), (∀ b ∈ bs, b < 256) →
      ∀ c ∈ base64.EncodeToString bs,
        (c ∈ base64.encodeStd ∨ c = base64.StdPadding) ∧ c ≠ 34 ∧ c ≠ 13 ∧ c ≠ 10
  | [], _ => by simp [base64.EncodeToString]
  | [a], h => by
    have ha : a < 256 := h a (by simp)
    intro c hc
    simp only [base64.EncodeToString, base64.StdPadding, List.mem_cons, List.mem_singleton,
      List.not_mem_nil, or_false] at hc
    rcases hc with hc | hc | hc | hc
    · subst hc; exact ⟨Or.inl (base64.enc6_mem _ (by omega)), (base64.enc6_spec _ (by omega)).2.2⟩
    · subst hc; exact ⟨Or.inl (base64.enc6_mem _ (by omega)), (base64.enc6_spec _ (by omega)).2.2⟩
    · subst hc; exact ⟨Or.inr rfl, by decide, by decide, by decide⟩
    · subst hc; exact ⟨Or.inr rfl, by decide, by decide, by decide⟩
  | [a, b], h => by
    have ha : a < 256 := h a (by simp)
    have hb : b < 256 := h b (by simp)
    intro c hc
    simp only [base64.EncodeToString, base64.StdPadding, List.mem_cons, List.mem_singleton,
      List.not_mem_nil, or_false] at hc
    rcases hc with hc | hc | hc | hc
    · subst hc; exact ⟨Or.inl (base64.enc6_mem _ (by omega)), (base64.enc6_spec _ (by omega)).2.2⟩
    · subst hc; exact ⟨Or.inl (base64.enc6_mem _ (by omega)), (base64.enc6_spec _ (by omega)).2.2⟩
    · subst hc; exact ⟨Or.inl (base64.enc6_mem _ (by omega)), (base64.enc6_spec _ (by omega)).2.2⟩
    · subst hc; exact ⟨Or.inr rfl, by decide, by decide, by decide⟩
  | a :: b :: c₀ :: rest, h => by
    have ha : a < 256 := h a (by simp)
    have hb : b < 256 := h b (by simp)
    have hc₀ : c₀ < 256 := h c₀ (by simp)
    have hrest : ∀ x ∈ rest, x < 256 := fun x hx => h x (by simp [hx])
    intro c hc
    simp only [base64.EncodeToString, List.mem_cons] at hc
    rcases hc with hc | hc | hc | hc | hc
    · subst hc; exact ⟨Or.inl (base64.enc6_mem _ (by omega)), (base64.enc6_spec _ (by omega)).2.2⟩
    · subst hc; exact ⟨Or.inl (base64.enc6_mem _ (by omega)), (base64.enc6_spec _ (by omega)).2.2⟩
    · subst hc; exact ⟨Or.inl (base64.enc6_mem _ (by omega)), (base64.enc6_spec _ (by omega)).2.2⟩
    · subst hc; exact ⟨Or.inl (base64.enc6_mem _ (by omega)), (base64.enc6_spec _ (by omega)).2.2⟩
    · exact base64.EncodeToString_chars rest hrest c hc

/-- Base64 round trip on the groups: decoding the encoding of bytes gives the
bytes back. -/
theorem base64.decodeQuanta_EncodeToString :
    ∀ (bs : Bytes), (∀ b ∈ bs, b < 256) →
      base64.decodeQuanta (base64.EncodeToString bs) = some bs
  | [], _ => by simp [base64.EncodeToString, base64.decodeQuanta]
  | [a], h => by
    have ha : a < 256 := h a (by simp)
    have e1 := (base64.enc6_spec (a / 4) (by omega)).1
    have e2 := (base64.enc6_spec (a % 4 * 16) (by omega)).1
    simp only [base64.EncodeToString, base64.decodeQuanta, e1, e2, and_self, if_true,
      Option.some.injEq, List.cons.injEq, and_true]
    omega
  | [a, b], h => by
    have ha : a < 256 := h a (by simp)
    have hb : b < 256 := h b (by simp)
    have e1 := (base64.enc6_spec (a / 4) (by omega)).1
    have e2 := (base64.enc6_spec (a % 4 * 16 + b / 16) (by omega)).1
    have e3 := base64.enc6_spec (b % 16 * 4) (by omega)
    have e3' : base64.enc6 (b % 16 * 4) ≠ base64.StdPadding := e3.2.1
    simp only [base64.EncodeToString, base64.decodeQuanta, e1, e2, e3.1, e3', and_self, if_true,
      if_false, Option.some.injEq, List.cons.injEq, and_true]
    omega
  | a :: b :: c :: rest, h => by
    have ha : a < 256 := h a (by simp)
    have hb : b < 256 := h b (by simp)
    have hc : c < 256 := h c (by simp)
    have hrest : ∀ x ∈ rest, x < 256 := fun x hx => h x (by simp [hx])
    have e1 := (base64.enc6_spec (a / 4) (by omega)).1
    have e2 := (base64.enc6_spec (a % 4 * 16 + b / 16) (by omega)).1
    have e3 := (base64.enc6_spec (b % 16 * 4 + c / 64) (by omega)).1
    have e4 := base64.enc6_spec (c % 64) (by omega)
    have e4' : base64.enc6 (c % 64) ≠ base64.StdPadding := e4.2.1
    have ih := base64.decodeQuanta_EncodeToString rest hrest
    simp only [base64.EncodeToString, base64.decodeQuanta, e1, e2, e3, e4.1, e4', ih,
      and_false, if_false, Option.some.injEq, List.cons.injEq, and_true]
    omega

/-- Base64 round trip: `DecodeString` of `EncodeToString` of bytes returns the
bytes and no error. -/
theorem base64.DecodeString_EncodeToString (bs : Bytes) (h : ∀ b ∈ bs, b < 256) :
    base64.DecodeString (base64.EncodeToString bs) = Except.ok bs := by
  have hfilter : (base64.EncodeToString bs).filter (fun c => c ≠ 13 ∧ c ≠ 10)
      = base64.EncodeToString bs := by
    apply List.filter_eq_self.mpr
    intro c hc
    have := base64.EncodeToString_chars bs h c hc
    simp [this.2.2.1, this.2.2.2]
  unfold base64.DecodeString
  rw [hfilter, base64.decodeQuanta_EncodeToString bs h]

/-- Trimming the double quotes off a quoted string without double quotes gives
the string. -/
theorem strings.Trim_quoted (s : Bytes) (h : ∀ c ∈ s, c ≠ 34) :
    strings.Trim ([34] ++ s ++ [34]) [34] = s := by
  unfold strings.Trim
  cases s with
  | nil => simp [List.dropWhile]
  | cons x s =>
    have hx : x ≠ 34 := h x (by simp)
    have hrev : ∀ c ∈ (x :: s).reverse, c ≠ 34 := fun c hc => h c (List.mem_reverse.mp hc)
    have e1 : ([34] ++ (x :: s) ++ [34]).dropWhile (fun c => decide (c ∈ [34]))
        = (x :: s) ++ [34] := by
      simp [List.dropWhile, hx]
    rw [e1]
    have e2 : ((x :: s) ++ [34]).reverse = [34] ++ (x :: s).reverse := by simp
    rw [e2]
    have e3 : ([34] ++ (x :: s).reverse).dropWhile (fun c => decide (c ∈ [34]))
        = (x :: s).reverse := by
      have hne : (x :: s).reverse ≠ [] := by simp
      obtain ⟨y, t, hyt⟩ := List.exists_cons_of_ne_nil hne
      have hy : y ≠ 34 := hrev y (by rw [hyt]; simp)
      rw [hyt]
      simp [List.dropWhile, hy]
    rw [e3, List.reverse_reverse]

/-- C19 (Uint64 JSON round trip): for every 64-bit unsigned value `u`,
`MarshalJSON` returns no error and the double-quoted standard-base64 string of
the LEB128 encoding of `u` (characters of the alphabet and padding, decoding to
that encoding), and `UnmarshalJSON` applied to that output returns no error and
stores exactly `u`, whatever the receiver held; and the transform pair of the
CBOR atlas entry round-trips as well: the LEB128 decoding of the LEB128
encoding of `u` is `u`. -/
theorem Uint64_json_roundtrip (u : Nat) (hu : u < 2 ^ 64) (held : Nat) :
    (Uint64.MarshalJSON u).2 = none ∧
    (Uint64.MarshalJSON u).1
      = [34] ++ base64.EncodeToString (leb128.FromUInt64 u) ++ [34] ∧
    (∀ c ∈ base64.EncodeToString (leb128.FromUInt64 u),
      c ∈ base64.encodeStd ∨ c = base64.StdPadding) ∧
    base64.DecodeString (base64.EncodeToString (leb128.FromUInt64 u))
      = Except.ok (leb128.FromUInt64 u) ∧
    Uint64.UnmarshalJSON held (Uint64.MarshalJSON u).1 = some (none, u) ∧
    (Uint64.TransformMarshal u).2 = none ∧
    Uint64.TransformUnmarshal (Uint64.TransformMarshal u).1 = some (u, none) := by
  have hbytes : ∀ b ∈ leb128.FromUInt64 u, b < 256 :=
    leb128.FromUInt64.loop_lt 10 (u % 2 ^ 64)
  have hchars := base64.EncodeToString_chars (leb128.FromUInt64 u) hbytes
  have hdec := base64.DecodeString_EncodeToString (leb128.FromUInt64 u) hbytes
  have hleb := leb128.ToUInt64_FromUInt64 u hu
  refine ⟨rfl, rfl, fun c hc => (hchars c hc).1, hdec, ?_, rfl, ?_⟩
  · unfold Uint64.UnmarshalJSON Uint64.MarshalJSON
    simp only []
    rw [strings.Trim_quoted _ (fun c hc => (hchars c hc).2.1), hdec]
    simp only [hleb]
  · unfold Uint64.TransformUnmarshal Uint64.TransformMarshal
    simp only [hleb]

/-- Witness of C19: 300 is encoded in LEB128 as the bytes `[172, 2]`, marshalled
as the JSON string `"rAI="` (the bytes 34, 114, 65, 73, 61, 34), and read back
as 300. -/
theorem Uint64_json_roundtrip_witness :
    leb128.FromUInt64 300 = [172, 2] ∧
    (Uint64.MarshalJSON 300).1 = [34, 114, 65, 73, 61, 34] ∧
    Uint64.UnmarshalJSON 0 (Uint64.MarshalJSON 300).1 = some (none, 300) ∧
    Uint64.TransformUnmarshal (Uint64.TransformMarshal 300).1 = some (300, none) :=
  have h := Uint64_json_roundtrip 300 (by decide) 0
  ⟨by decide, by decide, h.2.2.2.2.1, h.2.2.2.2.2.2⟩

/-! ## Theorems: `transfer` and `Send` over pointers -/

/-! ## Theorems: `transfer` over pointers -/

/-- The standard arithmetic is sound. -/
theorem TokenAmount.std_sound : TokenAmount.std.Sound :=
  { add := fun _ _ => rfl, sub := fun _ _ => rfl }

/-- The strict arithmetic is sound. -/
theorem TokenAmount.strict_sound : TokenAmount.strict.Sound :=
  { add := fun _ _ => rfl, sub := fun _ _ => rfl }

/-- The result of `transfer` over pointers when the amount is negative. -/
theorem transfer_ptr_of_negative {σ : Type} (A : Arith) (m : Mem.Machine σ)
    (fromActor toActor : Mem.Ptr) (value : TokenAmount)
    (h : TokenAmount.toInt value < 0) :
    Mem.transfer A m fromActor toActor value =
      { err := some ErrCannotTransferNegativeValue, machine := m, value := value } := by
  simp [Mem.transfer, TokenAmount.IsNegative, h]

/-- The result of `transfer` over pointers when the amount is not negative and
exceeds the sender's balance. -/
theorem transfer_ptr_of_insufficient {σ : Type} (A : Arith) (m : Mem.Machine σ)
    (fromActor toActor : Mem.Ptr) (value : TokenAmount)
    (h0 : 0 ≤ TokenAmount.toInt value)
    (h1 : TokenAmount.toInt (m.actors fromActor).Balance < TokenAmount.toInt value) :
    Mem.transfer A m fromActor toActor value =
      { err := some ErrInsufficientBalance, machine := m, value := value } := by
  simp [Mem.transfer, TokenAmount.IsNegative, TokenAmount.LessThan, h1, not_lt.mpr h0]

/-- The result of `transfer` over two different pointers when the amount is
valid: no error, the sender's balance lowered and the receiver's balance
raised by the amount, and everything else as it was. -/
theorem transfer_ptr_distinct {σ : Type} (A : Arith) (hA : A.Sound) (m : Mem.Machine σ)
    (fromActor toActor : Mem.Ptr) (value : TokenAmount) (hne : fromActor ≠ toActor)
    (h0 : 0 ≤ TokenAmount.toInt value)
    (h1 : TokenAmount.toInt value ≤ TokenAmount.toInt (m.actors fromActor).Balance) :
    (Mem.transfer A m fromActor toActor value).err = none ∧
    (Mem.transfer A m fromActor toActor value).machine.actors fromActor
      = { m.actors fromActor with
          Balance := some (TokenAmount.toInt (m.actors fromActor).Balance
            - TokenAmount.toInt value) } ∧
    (Mem.transfer A m fromActor toActor value).machine.actors toActor
      = { m.actors toActor with
          Balance := some (TokenAmount.toInt (m.actors toActor).Balance
            + TokenAmount.toInt value) } ∧
    (∀ q : Mem.Ptr, q ≠ fromActor → q ≠ toActor →
      (Mem.transfer A m fromActor toActor value).machine.actors q = m.actors q) := by
  have hne' : toActor ≠ fromActor := Ne.symm hne
  cases hb : (m.actors toActor).Balance with
  | none =>
    refine ⟨?_, ?_, ?_, ?_⟩
    · simp [Mem.transfer, TokenAmount.IsNegative, TokenAmount.LessThan, not_lt.mpr h0,
        not_lt.mpr h1]
    · simp [Mem.transfer, Mem.Machine.setBalance, TokenAmount.IsNegative,
        TokenAmount.LessThan, not_lt.mpr h0, not_lt.mpr h1, hb, hne, hA.sub]
    · simp [Mem.transfer, Mem.Machine.setBalance, TokenAmount.IsNegative,
        TokenAmount.LessThan, not_lt.mpr h0, not_lt.mpr h1, hb, hne', hA.add,
        TokenAmount.ZeroToken, TokenAmount.toInt_none]
    · intro q hq1 hq2
      simp [Mem.transfer, Mem.Machine.setBalance, TokenAmount.IsNegative,
        TokenAmount.LessThan, not_lt.mpr h0, not_lt.mpr h1, hb, hq1, hq2]
  | some b =>
    refine ⟨?_, ?_, ?_, ?_⟩
    · simp [Mem.transfer, TokenAmount.IsNegative, TokenAmount.LessThan, not_lt.mpr h0,
        not_lt.mpr h1]
    · simp [Mem.transfer, Mem.Machine.setBalance, TokenAmount.IsNegative,
        TokenAmount.LessThan, not_lt.mpr h0, not_lt.mpr h1, hb, hne, hA.sub]
    · simp [Mem.transfer, Mem.Machine.setBalance, TokenAmount.IsNegative,
        TokenAmount.LessThan, not_lt.mpr h0, not_lt.mpr h1, hb, hne', hA.add,
        TokenAmount.toInt_some]
    · intro q hq1 hq2
      simp [Mem.transfer, Mem.Machine.setBalance, TokenAmount.IsNegative,
        TokenAmount.LessThan, not_lt.mpr h0, not_lt.mpr h1, hb, hq1, hq2]

/-- The result of `transfer` when one pointer is handed in as sender and as
receiver and the amount is valid: no error, and the record keeps the balance it
had, made explicit. -/
theorem transfer_ptr_same {σ : Type} (A : Arith) (hA : A.Sound) (m : Mem.Machine σ)
    (p : Mem.Ptr) (value : TokenAmount)
    (h0 : 0 ≤ TokenAmount.toInt value)
    (h1 : TokenAmount.toInt value ≤ TokenAmount.toInt (m.actors p).Balance) :
    (Mem.transfer A m p p value).err = none ∧
    (Mem.transfer A m p p value).machine.actors p
      = { m.actors p with Balance := some (TokenAmount.toInt (m.actors p).Balance) } := by
  refine ⟨?_, ?_⟩
  · simp [Mem.transfer, TokenAmount.IsNegative, TokenAmount.LessThan, not_lt.mpr h0,
      not_lt.mpr h1]
  · cases hb : (m.actors p).Balance with
    | none =>
      rw [hb] at h1
      simp only [TokenAmount.toInt_none] at h1
      simp [Mem.transfer, Mem.Machine.setBalance, TokenAmount.IsNegative,
        TokenAmount.LessThan, not_lt.mpr h0, not_lt.mpr h1, hb, hA.add, hA.sub,
        TokenAmount.ZeroToken, TokenAmount.toInt_none, TokenAmount.toInt_some]
    | some b =>
      rw [hb] at h1
      simp only [TokenAmount.toInt_some] at h1
      simp [Mem.transfer, Mem.Machine.setBalance, TokenAmount.IsNegative,
        TokenAmount.LessThan, not_lt.mpr h0, not_lt.mpr h1, hb, hA.add, hA.sub,
        TokenAmount.toInt_some]

/-- The function `transfer` over pointers returns no error when the amount is
valid, whether or not the two pointers are the same. -/
theorem transfer_ptr_ok {σ : Type} (A : Arith) (m : Mem.Machine σ)
    (fromActor toActor : Mem.Ptr) (value : TokenAmount)
    (h0 : 0 ≤ TokenAmount.toInt value)
    (h1 : TokenAmount.toInt value ≤ TokenAmount.toInt (m.actors fromActor).Balance) :
    (Mem.transfer A m fromActor toActor value).err = none := by
  simp [Mem.transfer, TokenAmount.IsNegative, TokenAmount.LessThan, not_lt.mpr h0,
    not_lt.mpr h1]

/-- C4, as stated, fails when `from` and `to` are one and the same record:
with a balance of 100 and an amount of 30 the call succeeds and the balance of
the record is 100 afterwards, neither 100 - 30 nor 100 + 30. -/
theorem transfer_ptr_postcondition_counterexample :
    (Mem.transfer TokenAmount.std Mem.hundred 0 0 (some 30)).err = none ∧
    ((Mem.transfer TokenAmount.std Mem.hundred 0 0 (some 30)).machine.actors 0).Balance
      = some 100 ∧
    ((Mem.transfer TokenAmount.std Mem.hundred 0 0 (some 30)).machine.actors 0).Balance
      ≠ some (TokenAmount.toInt (Mem.hundred.actors 0).Balance - 30) ∧
    ((Mem.transfer TokenAmount.std Mem.hundred 0 0 (some 30)).machine.actors 0).Balance
      ≠ some (TokenAmount.toInt (Mem.hundred.actors 0).Balance + 30) := by
  decide

/-- C4 (transfer postcondition, amended): for every sound arithmetic, when
`from` and `to` are two different records and `0 <= amount <= from.Balance`,
`transfer` returns no error, the sender's new balance is the old one minus the
amount and the receiver's new balance is the old one plus the amount (a nil
balance or amount counting as zero); and for every `from` and `to`, the same
record or not, `transfer` returns an error exactly when the amount is negative
or the sender's balance is below the amount. -/
theorem transfer_ptr_postcondition {σ : Type} (A : Arith) (hA : A.Sound) (m : Mem.Machine σ)
    (fromActor toActor : Mem.Ptr) (value : TokenAmount) :
    (fromActor ≠ toActor →
      0 ≤ TokenAmount.toInt value ∧
        TokenAmount.toInt value ≤ TokenAmount.toInt (m.actors fromActor).Balance →
      (Mem.transfer A m fromActor toActor value).err = none ∧
      ((Mem.transfer A m fromActor toActor value).machine.actors fromActor).Balance
        = some (TokenAmount.toInt (m.actors fromActor).Balance - TokenAmount.toInt value) ∧
      ((Mem.transfer A m fromActor toActor value).machine.actors toActor).Balance
        = some (TokenAmount.toInt (m.actors toActor).Balance + TokenAmount.toInt value)) ∧
    ((Mem.transfer A m fromActor toActor value).err ≠ none ↔
      (TokenAmount.toInt value < 0 ∨
        TokenAmount.toInt (m.actors fromActor).Balance < TokenAmount.toInt value)) := by
  constructor
  · rintro hne ⟨h0, h1⟩
    obtain ⟨he, hf, ht, _⟩ := transfer_ptr_distinct A hA m fromActor toActor value hne h0 h1
    rw [hf, ht]
    exact ⟨he, rfl, rfl⟩
  · by_cases hneg : TokenAmount.toInt value < 0
    · rw [transfer_ptr_of_negative A m fromActor toActor value hneg]
      simp [hneg]
    · by_cases hlt : TokenAmount.toInt (m.actors fromActor).Balance < TokenAmount.toInt value
      · rw [transfer_ptr_of_insufficient A m fromActor toActor value (not_lt.mp hneg) hlt]
        simp [hlt]
      · rw [transfer_ptr_ok A m fromActor toActor value (not_lt.mp hneg) (not_lt.mp hlt)]
        simp [hneg, hlt]

/-- Witness of the amended C4: a sender with balance 100 and a receiver with a
nil balance, two records, amount 30. -/
theorem transfer_ptr_postcondition_witness :
    (Mem.transfer TokenAmount.std Mem.pair 0 1 (some 30)).err = none ∧
    ((Mem.transfer TokenAmount.std Mem.pair 0 1 (some 30)).machine.actors 0).Balance
      = some (TokenAmount.toInt (Mem.pair.actors 0).Balance - TokenAmount.toInt (some 30)) ∧
    ((Mem.transfer TokenAmount.std Mem.pair 0 1 (some 30)).machine.actors 1).Balance
      = some (TokenAmount.toInt (Mem.pair.actors 1).Balance + TokenAmount.toInt (some 30)) :=
  (transfer_ptr_postcondition TokenAmount.std TokenAmount.std_sound Mem.pair 0 1 (some 30)).1
    (by decide) ⟨by decide, by decide⟩

/-- C5 (nil-to-zero normalization): for every sound arithmetic, whatever it
does with a nil receiver of `Add`, and for every `from`, `to` and amount with
`0 <= amount <= from.Balance`: if the receiver's balance is nil before the
call, after the call it is a non-nil amount equal exactly to the amount
transferred. -/
theorem transfer_ptr_nil_receiver {σ : Type} (A : Arith) (hA : A.Sound) (m : Mem.Machine σ)
    (fromActor toActor : Mem.Ptr) (value : TokenAmount)
    (h0 : 0 ≤ TokenAmount.toInt value)
    (h1 : TokenAmount.toInt value ≤ TokenAmount.toInt (m.actors fromActor).Balance)
    (hnil : (m.actors toActor).Balance = none) :
    ((Mem.transfer A m fromActor toActor value).machine.actors toActor).Balance
      = some (TokenAmount.toInt value) := by
  by_cases hne : fromActor = toActor
  · subst hne
    rw [(transfer_ptr_same A hA m fromActor value h0 h1).2]
    rw [hnil, TokenAmount.toInt_none] at h1
    simp only [hnil, TokenAmount.toInt_none]
    congr 1
    omega
  · rw [(transfer_ptr_distinct A hA m fromActor toActor value hne h0 h1).2.2.1]
    simp [hnil, TokenAmount.toInt_none]

/-- Witness of C5: in the strict arithmetic, where a nil receiver of `Add`
yields nil, a receiver with a nil balance ends with exactly 30. -/
theorem transfer_ptr_nil_receiver_witness :
    TokenAmount.strict.Add none (some 30) = none ∧
    (Mem.pair.actors 1).Balance = none ∧
    ((Mem.transfer TokenAmount.strict Mem.pair 0 1 (some 30)).machine.actors 1).Balance
      = some (TokenAmount.toInt (some 30)) :=
  ⟨rfl, rfl,
    transfer_ptr_nil_receiver TokenAmount.strict TokenAmount.strict_sound Mem.pair 0 1 (some 30)
      (by decide) (by decide) rfl⟩

/-- The function `transfer` over pointers leaves the tree as it was. -/
theorem transfer_ptr_tree {σ : Type} (A : Arith) (m : Mem.Machine σ)
    (fromActor toActor : Mem.Ptr) (value : TokenAmount) :
    (Mem.transfer A m fromActor toActor value).machine.tree = m.tree := by
  unfold Mem.transfer
  split_ifs <;> rfl

/-- Assigning a balance through a pointer changes the code of no record. -/
theorem Machine_setBalance_code {σ : Type} (m : Mem.Machine σ) (p q : Mem.Ptr)
    (b : TokenAmount) : ((m.setBalance p b).actors q).Code = (m.actors q).Code := by
  unfold Mem.Machine.setBalance
  by_cases h : q = p
  · subst h
    simp
  · simp [h]

/-- C18 (transfer frame): for every arithmetic, every memory, every `from`,
`to` and amount, whether the call succeeds or fails: the code of every record,
that of `from` and of `to` included, is unchanged; every record other than
`from` and `to` is unchanged, so at most the two balances change; the amount
behind `value` is unchanged; and the state tree is unchanged, no operation
being performed on it. -/
theorem transfer_ptr_frame {σ : Type} (A : Arith) (m : Mem.Machine σ)
    (fromActor toActor : Mem.Ptr) (value : TokenAmount) :
    (∀ q : Mem.Ptr,
      ((Mem.transfer A m fromActor toActor value).machine.actors q).Code
        = (m.actors q).Code) ∧
    (∀ q : Mem.Ptr, q ≠ fromActor → q ≠ toActor →
      (Mem.transfer A m fromActor toActor value).machine.actors q = m.actors q) ∧
    (Mem.transfer A m fromActor toActor value).value = value ∧
    (Mem.transfer A m fromActor toActor value).machine.tree = m.tree := by
  refine ⟨?_, ?_, ?_, ?_⟩
  · intro q
    unfold Mem.transfer
    split_ifs <;> simp only [Machine_setBalance_code]
  · intro q hq1 hq2
    unfold Mem.transfer
    split_ifs <;> simp [Mem.Machine.setBalance, hq1, hq2]
  · unfold Mem.transfer
    split_ifs <;> rfl
  · unfold Mem.transfer
    split_ifs <;> rfl

/-- Witness of C18: a transfer of 30 between the records behind pointers 0 and
1 leaves the record behind pointer 2 as it was. -/
theorem transfer_ptr_frame_witness :
    (Mem.transfer TokenAmount.std Mem.pair 0 1 (some 30)).machine.actors 2
      = Mem.pair.actors 2 :=
  (transfer_ptr_frame TokenAmount.std Mem.pair 0 1 (some 30)).2.1 2 (by decide) (by decide)

/-- C12, as stated, fails when the transfer fails: a sender with balance 100
cannot send 130, and the receiver's balance is afterwards nil when it was nil
and an explicit zero when it was an explicit zero; the two resulting balances
are not the same. -/
theorem transfer_ptr_nil_as_zero_counterexample :
    (Mem.transfer TokenAmount.std (Mem.pair.setBalance 1 none) 0 1 (some 130)).err
      = some ErrInsufficientBalance ∧
    (Mem.transfer TokenAmount.std (Mem.pair.setBalance 1 (some 0)) 0 1 (some 130)).err
      = some ErrInsufficientBalance ∧
    ((Mem.transfer TokenAmount.std (Mem.pair.setBalance 1 none) 0 1
      (some 130)).machine.actors 1).Balance = none ∧
    ((Mem.transfer TokenAmount.std (Mem.pair.setBalance 1 (some 0)) 0 1
      (some 130)).machine.actors 1).Balance = some 0 ∧
    ((Mem.transfer TokenAmount.std (Mem.pair.setBalance 1 none) 0 1
      (some 130)).machine.actors 1).Balance
      ≠ ((Mem.transfer TokenAmount.std (Mem.pair.setBalance 1 (some 0)) 0 1
        (some 130)).machine.actors 1).Balance := by
  decide

/-- C12 (nil balance equals zero balance, amended): for every sound
arithmetic, every amount and every other actor `q`, a record different from
the actor `p`: `transfer` returns the same error or success when the balance of
`p` is nil as when it is an explicit zero, whether `p` is the receiver (first
part) or the sender (second part); when it succeeds, every record is the same
afterwards in the two cases; when it fails, the memory is as it was, the nil
balance still nil and the zero balance still zero. -/
theorem transfer_ptr_nil_as_zero {σ : Type} (A : Arith) (hA : A.Sound) (m : Mem.Machine σ)
    (p q : Mem.Ptr) (hpq : p ≠ q) (value : TokenAmount) :
    ((Mem.transfer A (m.setBalance p none) q p value).err
        = (Mem.transfer A (m.setBalance p (some 0)) q p value).err ∧
      ((Mem.transfer A (m.setBalance p none) q p value).err = none →
        ∀ x : Mem.Ptr,
          (Mem.transfer A (m.setBalance p none) q p value).machine.actors x
            = (Mem.transfer A (m.setBalance p (some 0)) q p value).machine.actors x) ∧
      ((Mem.transfer A (m.setBalance p none) q p value).err ≠ none →
        (Mem.transfer A (m.setBalance p none) q p value).machine = m.setBalance p none ∧
        (Mem.transfer A (m.setBalance p (some 0)) q p value).machine
          = m.setBalance p (some 0))) ∧
    ((Mem.transfer A (m.setBalance p none) p q value).err
        = (Mem.transfer A (m.setBalance p (some 0)) p q value).err ∧
      ((Mem.transfer A (m.setBalance p none) p q value).err = none →
        ∀ x : Mem.Ptr,
          (Mem.transfer A (m.setBalance p none) p q value).machine.actors x
            = (Mem.transfer A (m.setBalance p (some 0)) p q value).machine.actors x) ∧
      ((Mem.transfer A (m.setBalance p none) p q value).err ≠ none →
        (Mem.transfer A (m.setBalance p none) p q value).machine = m.setBalance p none ∧
        (Mem.transfer A (m.setBalance p (some 0)) p q value).machine
          = m.setBalance p (some 0))) := by
  have hqp : q ≠ p := Ne.symm hpq
  have hq0 : ((m.setBalance p none).actors q) = m.actors q := by
    simp [Mem.Machine.setBalance, hqp]
  have hq1 : ((m.setBalance p (some 0)).actors q) = m.actors q := by
    simp [Mem.Machine.setBalance, hqp]
  have hp0 : ((m.setBalance p none).actors p).Balance = none := by
    simp [Mem.Machine.setBalance]
  have hp1 : ((m.setBalance p (some 0)).actors p).Balance = some 0 := by
    simp [Mem.Machine.setBalance]
  constructor
  · -- `p` is the receiver
    by_cases hneg : TokenAmount.toInt value < 0
    · rw [transfer_ptr_of_negative A _ q p value hneg, transfer_ptr_of_negative A _ q p value hneg]
      simp
    · by_cases hlt : TokenAmount.toInt (m.actors q).Balance < TokenAmount.toInt value
      · rw [transfer_ptr_of_insufficient A _ q p value (not_lt.mp hneg) (by rw [hq0]; exact hlt),
          transfer_ptr_of_insufficient A _ q p value (not_lt.mp hneg) (by rw [hq1]; exact hlt)]
        simp
      · have d0 := transfer_ptr_distinct A hA (m.setBalance p none) q p value hqp
          (not_lt.mp hneg) (by rw [hq0]; exact not_lt.mp hlt)
        have d1 := transfer_ptr_distinct A hA (m.setBalance p (some 0)) q p value hqp
          (not_lt.mp hneg) (by rw [hq1]; exact not_lt.mp hlt)
        refine ⟨by rw [d0.1, d1.1], ?_, fun h => absurd d0.1 h⟩
        intro _ x
        by_cases hxq : x = q
        · subst hxq
          rw [d0.2.1, d1.2.1, hq0, hq1]
        · by_cases hxp : x = p
          · subst hxp
            rw [d0.2.2.1, d1.2.2.1]
            simp [Mem.Machine.setBalance, TokenAmount.toInt]
          · rw [d0.2.2.2 x hxq hxp, d1.2.2.2 x hxq hxp]
            simp [Mem.Machine.setBalance, hxp]
  · -- `p` is the sender
    by_cases hneg : TokenAmount.toInt value < 0
    · rw [transfer_ptr_of_negative A _ p q value hneg, transfer_ptr_of_negative A _ p q value hneg]
      simp
    · by_cases hlt : (0 : Int) < TokenAmount.toInt value
      · rw [transfer_ptr_of_insufficient A _ p q value (not_lt.mp hneg)
            (by rw [hp0]; exact hlt),
          transfer_ptr_of_insufficient A _ p q value (not_lt.mp hneg)
            (by rw [hp1]; exact hlt)]
        simp
      · have d0 := transfer_ptr_distinct A hA (m.setBalance p none) p q value hpq
          (not_lt.mp hneg) (by rw [hp0]; exact not_lt.mp hlt)
        have d1 := transfer_ptr_distinct A hA (m.setBalance p (some 0)) p q value hpq
          (not_lt.mp hneg) (by rw [hp1]; exact not_lt.mp hlt)
        refine ⟨by rw [d0.1, d1.1], ?_, fun h => absurd d0.1 h⟩
        intro _ x
        by_cases hxp : x = p
        · subst hxp
          rw [d0.2.1, d1.2.1]
          simp [Mem.Machine.setBalance, TokenAmount.toInt]
        · by_cases hxq : x = q
          · subst hxq
            rw [d0.2.2.1, d1.2.2.1, hq0, hq1]
          · rw [d0.2.2.2 x hxp hxq, d1.2.2.2 x hxp hxq]
            simp [Mem.Machine.setBalance, hxp]

/-- Witness of the amended C12: a receiver of 30 ends with the same record
whether its balance was nil or zero, and so does a sender of a zero amount. -/
theorem transfer_ptr_nil_as_zero_witness :
    (Mem.transfer TokenAmount.std (Mem.pair.setBalance 1 none) 0 1 (some 30)).machine.actors 1
      = (Mem.transfer TokenAmount.std (Mem.pair.setBalance 1 (some 0)) 0 1
          (some 30)).machine.actors 1 ∧
    (Mem.transfer TokenAmount.std (Mem.pair.setBalance 1 none) 1 0 (some 0)).machine.actors 1
      = (Mem.transfer TokenAmount.std (Mem.pair.setBalance 1 (some 0)) 1 0
          (some 0)).machine.actors 1 :=
  ⟨(transfer_ptr_nil_as_zero TokenAmount.std TokenAmount.std_sound Mem.pair 1 0 (by decide)
      (some 30)).1.2.1 (by decide) 1,
   (transfer_ptr_nil_as_zero TokenAmount.std TokenAmount.std_sound Mem.pair 1 0 (by decide)
      (some 0)).2.2.1 (by decide) 1⟩

/-! ## Theorems: `Send` over pointers -/

/-- With a value present the transfer step over pointers is the injected
transfer. -/
theorem transferStep_ptr_some {σ : Type} (deps : Mem.sendDeps σ) (m : Mem.Machine σ)
    (fromActor toActor : Mem.Ptr) (msg : Message) (h : msg.Value ≠ none) :
    Mem.transferStep deps m fromActor toActor msg
      = deps.transfer m fromActor toActor msg.Value := by
  simp [Mem.transferStep, h]

/-- Over pointers: both writes succeed and the method is empty. -/
theorem send_ptr_of_empty_method {σ : Type} (T : Tree σ) (deps : Mem.sendDeps σ)
    (m : Mem.Machine σ) (fromActor toActor : Mem.Ptr) (msg : Message) (st₁ st₂ : σ)
    (htr : (Mem.transferStep deps m fromActor toActor msg).err = none)
    (h1 : T.SetActor (Mem.transferStep deps m fromActor toActor msg).machine.tree msg.From
      ((Mem.transferStep deps m fromActor toActor msg).machine.actors fromActor) = (none, st₁))
    (h2 : T.SetActor st₁ msg.To
      ((Mem.transferStep deps m fromActor toActor msg).machine.actors toActor) = (none, st₂))
    (hm : msg.Method = "") :
    Mem.send T deps m fromActor toActor msg =
      { ret := none, exitCode := 0, err := none,
        machine := { (Mem.transferStep deps m fromActor toActor msg).machine with tree := st₂ },
        calls := Mem.transferLog fromActor toActor msg ++
          [Mem.Call.SetActor msg.From
            ((Mem.transferStep deps m fromActor toActor msg).machine.actors fromActor)] ++
          [Mem.Call.SetActor msg.To
            ((Mem.transferStep deps m fromActor toActor msg).machine.actors toActor)] } := by
  simp only [Mem.send, htr, h1, h2, hm, if_true]

/-- Over pointers: the code resolves and does not export the method. -/
theorem send_ptr_of_missing_export {σ : Type} (T : Tree σ) (deps : Mem.sendDeps σ)
    (m : Mem.Machine σ) (fromActor toActor : Mem.Ptr) (msg : Message) (st₁ st₂ : σ)
    (exe : Executable σ)
    (htr : (Mem.transferStep deps m fromActor toActor msg).err = none)
    (h1 : T.SetActor (Mem.transferStep deps m fromActor toActor msg).machine.tree msg.From
      ((Mem.transferStep deps m fromActor toActor msg).machine.actors fromActor) = (none, st₁))
    (h2 : T.SetActor st₁ msg.To
      ((Mem.transferStep deps m fromActor toActor msg).machine.actors toActor) = (none, st₂))
    (hm : msg.Method ≠ "")
    (hc : T.GetBuiltinActorCode st₂
      ((Mem.transferStep deps m fromActor toActor msg).machine.actors toActor).Code
        = Except.ok exe)
    (hx : msg.Method ∉ exe.Exports) :
    Mem.send T deps m fromActor toActor msg =
      { ret := none, exitCode := 1,
        err := some (errors.NewRevertErrorf "missing export: " msg.Method),
        machine := { (Mem.transferStep deps m fromActor toActor msg).machine with tree := st₂ },
        calls := Mem.transferLog fromActor toActor msg ++
          [Mem.Call.SetActor msg.From
            ((Mem.transferStep deps m fromActor toActor msg).machine.actors fromActor)] ++
          [Mem.Call.SetActor msg.To
            ((Mem.transferStep deps m fromActor toActor msg).machine.actors toActor)] ++
          [Mem.Call.GetBuiltinActorCode
            ((Mem.transferStep deps m fromActor toActor msg).machine.actors toActor).Code] } := by
  simp only [Mem.send, htr, h1, h2, hm, hc, hx, if_false, not_false_eq_true, if_true]

/-- What the transfer step of `Send` over two different pointers leaves when a
valid value is present: no error, the two records with the balances moved, the
tree as it was. -/
theorem transferStep_ptr_valid {σ : Type} (A : Arith) (hA : A.Sound) (m : Mem.Machine σ)
    (fromActor toActor : Mem.Ptr) (msg : Message) (v : Int) (hne : fromActor ≠ toActor)
    (hv : msg.Value = some v) (h0 : 0 ≤ v)
    (h1 : v ≤ TokenAmount.toInt (m.actors fromActor).Balance) :
    (Mem.transferStep { transfer := Mem.transfer A } m fromActor toActor msg).err = none ∧
    (Mem.transferStep { transfer := Mem.transfer A } m fromActor toActor msg).machine.actors
      fromActor
      = { m.actors fromActor with
          Balance := some (TokenAmount.toInt (m.actors fromActor).Balance - v) } ∧
    (Mem.transferStep { transfer := Mem.transfer A } m fromActor toActor msg).machine.actors
      toActor
      = { m.actors toActor with
          Balance := some (TokenAmount.toInt (m.actors toActor).Balance + v) } ∧
    (Mem.transferStep { transfer := Mem.transfer A } m fromActor toActor msg).machine.tree
      = m.tree := by
  have hsome : msg.Value ≠ none := by simp [hv]
  rw [transferStep_ptr_some _ _ _ _ _ hsome]
  show (Mem.transfer A m fromActor toActor msg.Value).err = none ∧
    (Mem.transfer A m fromActor toActor msg.Value).machine.actors fromActor = _ ∧
    (Mem.transfer A m fromActor toActor msg.Value).machine.actors toActor = _ ∧
    (Mem.transfer A m fromActor toActor msg.Value).machine.tree = m.tree
  rw [hv]
  obtain ⟨he, hf, ht, _⟩ := transfer_ptr_distinct A hA m fromActor toActor (some v) hne
    (by simpa [TokenAmount.toInt_some] using h0) (by simpa [TokenAmount.toInt_some] using h1)
  refine ⟨he, ?_, ?_, transfer_ptr_tree A m fromActor toActor (some v)⟩
  · rw [hf]; simp [TokenAmount.toInt_some]
  · rw [ht]; simp [TokenAmount.toInt_some]

/-- C6, as stated, fails in two ways.  With `msg.From = msg.To` (the actor at
address 7 holds 100 and sends 30 to itself, `from` and `to` being two copies of
its record), `Send` returns `(nil, 0, nil)` and the tree then holds 130 at
`msg.From`, not the sender's record with balance 70.  With `from` and `to` one
and the same record (balance 100) sent from address 7 to address 8, `Send`
returns `(nil, 0, nil)` and the tree holds 100 at both addresses, neither 70 at
`msg.From` nor 130 at `msg.To`. -/
theorem Send_ptr_pure_transfer_counterexample :
    ((Mem.Send TokenAmount.std (MemTree.tree MemTree.noCode) Mem.hundred 0 1
        ⟨7, 7, "", some 30⟩).err = none ∧
      (Mem.Send TokenAmount.std (MemTree.tree MemTree.noCode) Mem.hundred 0 1
        ⟨7, 7, "", some 30⟩).exitCode = 0 ∧
      MemTree.find 7 (Mem.Send TokenAmount.std (MemTree.tree MemTree.noCode) Mem.hundred 0 1
        ⟨7, 7, "", some 30⟩).machine.tree.actors = some ⟨1, some 130⟩ ∧
      MemTree.find 7 (Mem.Send TokenAmount.std (MemTree.tree MemTree.noCode) Mem.hundred 0 1
        ⟨7, 7, "", some 30⟩).machine.tree.actors ≠ some ⟨1, some (100 - 30)⟩) ∧
    ((Mem.Send TokenAmount.std (MemTree.tree MemTree.noCode) Mem.hundred 0 0
        ⟨7, 8, "", some 30⟩).err = none ∧
      (Mem.Send TokenAmount.std (MemTree.tree MemTree.noCode) Mem.hundred 0 0
        ⟨7, 8, "", some 30⟩).exitCode = 0 ∧
      MemTree.find 7 (Mem.Send TokenAmount.std (MemTree.tree MemTree.noCode) Mem.hundred 0 0
        ⟨7, 8, "", some 30⟩).machine.tree.actors = some ⟨1, some 100⟩ ∧
      MemTree.find 8 (Mem.Send TokenAmount.std (MemTree.tree MemTree.noCode) Mem.hundred 0 0
        ⟨7, 8, "", some 30⟩).machine.tree.actors = some ⟨1, some 100⟩ ∧
      MemTree.find 7 (Mem.Send TokenAmount.std (MemTree.tree MemTree.noCode) Mem.hundred 0 0
        ⟨7, 8, "", some 30⟩).machine.tree.actors ≠ some ⟨1, some (100 - 30)⟩ ∧
      MemTree.find 8 (Mem.Send TokenAmount.std (MemTree.tree MemTree.noCode) Mem.hundred 0 0
        ⟨7, 8, "", some 30⟩).machine.tree.actors ≠ some ⟨1, some (100 + 30)⟩) := by
  decide

/-- C6 (pure-transfer short circuit, amended): for a message with an empty
method, `msg.From` different from `msg.To` and a non-nil value
`0 <= Value <= from.Balance`, for `from` and `to` two different records, on a
tree that stores what is written to it and on which the two writes succeed,
`Send` returns `(nil, 0, nil)`; the only calls made are the transfer and the
two writes, so no code is resolved and nothing is dispatched; afterwards the
tree holds at `msg.From` the sender's record with balance lowered by the value
and at `msg.To` the receiver's record with balance raised by the value. -/
theorem Send_ptr_pure_transfer {σ : Type} (A : Arith) (hA : A.Sound) (T : Tree σ)
    (hT : T.Lawful) (m : Mem.Machine σ) (fromActor toActor : Mem.Ptr) (msg : Message)
    (st₁ st₂ : σ) (v : Int)
    (hptr : fromActor ≠ toActor) (haddr : msg.From ≠ msg.To)
    (hm : msg.Method = "") (hv : msg.Value = some v)
    (h0 : 0 ≤ v) (h1 : v ≤ TokenAmount.toInt (m.actors fromActor).Balance)
    (hs1 : T.SetActor m.tree msg.From
      { m.actors fromActor with
        Balance := some (TokenAmount.toInt (m.actors fromActor).Balance - v) } = (none, st₁))
    (hs2 : T.SetActor st₁ msg.To
      { m.actors toActor with
        Balance := some (TokenAmount.toInt (m.actors toActor).Balance + v) } = (none, st₂)) :
    (Mem.Send A T m fromActor toActor msg).ret = none ∧
    (Mem.Send A T m fromActor toActor msg).exitCode = 0 ∧
    (Mem.Send A T m fromActor toActor msg).err = none ∧
    (Mem.Send A T m fromActor toActor msg).calls =
      [Mem.Call.transfer fromActor toActor (some v),
       Mem.Call.SetActor msg.From
        { m.actors fromActor with
          Balance := some (TokenAmount.toInt (m.actors fromActor).Balance - v) },
       Mem.Call.SetActor msg.To
        { m.actors toActor with
          Balance := some (TokenAmount.toInt (m.actors toActor).Balance + v) }] ∧
    T.GetActor (Mem.Send A T m fromActor toActor msg).machine.tree msg.From =
      Except.ok { m.actors fromActor with
        Balance := some (TokenAmount.toInt (m.actors fromActor).Balance - v) } ∧
    T.GetActor (Mem.Send A T m fromActor toActor msg).machine.tree msg.To =
      Except.ok { m.actors toActor with
        Balance := some (TokenAmount.toInt (m.actors toActor).Balance + v) } := by
  obtain ⟨he, hf, ht, htree⟩ :=
    transferStep_ptr_valid A hA m fromActor toActor msg v hptr hv h0 h1
  have hS : Mem.Send A T m fromActor toActor msg = _ :=
    send_ptr_of_empty_method T { transfer := Mem.transfer A } m fromActor toActor msg st₁ st₂
      he (by rw [htree, hf]; exact hs1) (by rw [ht]; exact hs2) hm
  rw [hS, hf, ht]
  refine ⟨rfl, rfl, rfl, ?_, ?_, ?_⟩
  · simp [Mem.transferLog, hv]
  · show T.GetActor st₂ msg.From = _
    rw [hT.get_set_other st₁ st₂ msg.To msg.From _ hs2 haddr]
    exact hT.get_set_same m.tree st₁ msg.From _ hs1
  · exact hT.get_set_same st₁ st₂ msg.To _ hs2

/-- Witness of the amended C6: sender balance 100, receiver balance 0, value 30
from address 7 to address 8 gives `(nil, 0, nil)` with 70 and 30 stored. -/
theorem Send_ptr_pure_transfer_witness :
    (Mem.Send TokenAmount.std (MemTree.tree MemTree.noCode) (Mem.pair.setBalance 1 (some 0))
      0 1 ⟨7, 8, "", some 30⟩).ret = none ∧
    (Mem.Send TokenAmount.std (MemTree.tree MemTree.noCode) (Mem.pair.setBalance 1 (some 0))
      0 1 ⟨7, 8, "", some 30⟩).exitCode = 0 ∧
    (Mem.Send TokenAmount.std (MemTree.tree MemTree.noCode) (Mem.pair.setBalance 1 (some 0))
      0 1 ⟨7, 8, "", some 30⟩).err = none ∧
    (MemTree.tree MemTree.noCode).GetActor
      (Mem.Send TokenAmount.std (MemTree.tree MemTree.noCode) (Mem.pair.setBalance 1 (some 0))
        0 1 ⟨7, 8, "", some 30⟩).machine.tree 7 = Except.ok ⟨1, some 70⟩ ∧
    (MemTree.tree MemTree.noCode).GetActor
      (Mem.Send TokenAmount.std (MemTree.tree MemTree.noCode) (Mem.pair.setBalance 1 (some 0))
        0 1 ⟨7, 8, "", some 30⟩).machine.tree 8 = Except.ok ⟨2, some 30⟩ :=
  have h := Send_ptr_pure_transfer TokenAmount.std TokenAmount.std_sound
    (MemTree.tree MemTree.noCode) (MemTree.tree_lawful _) (Mem.pair.setBalance 1 (some 0))
    0 1 ⟨7, 8, "", some 30⟩ ⟨[(7, ⟨1, some 70⟩)], []⟩
    ⟨[(7, ⟨1, some 70⟩), (8, ⟨2, some 30⟩)], []⟩ 30
    (by decide) (by decide) rfl rfl (by decide) (by decide) rfl rfl
  ⟨h.1, h.2.1, h.2.2.1, h.2.2.2.2.1, h.2.2.2.2.2⟩

/-- C16, as stated, fails in two ways, the method `"absent"` not being
exported.  With `msg.From = msg.To` (the actor at address 7 holds 100 and sends
30 to itself, `from` and `to` being two copies of its record), `Send` returns
the missing-export error and the tree holds 130 at `msg.From`, not 70.  With
`from` and `to` one and the same record (balance 100) sent from address 7 to
address 8, `Send` returns the missing-export error and the tree holds 100 at
both addresses, neither 70 at `msg.From` nor 130 at `msg.To`. -/
theorem Send_ptr_commit_before_export_counterexample :
    ((Mem.Send TokenAmount.std (MemTree.tree MemTree.rejectingCode) Mem.hundred 0 1
        ⟨7, 7, "absent", some 30⟩).err = some (GoError.revert "missing export: absent") ∧
      MemTree.find 7 (Mem.Send TokenAmount.std (MemTree.tree MemTree.rejectingCode)
        Mem.hundred 0 1 ⟨7, 7, "absent", some 30⟩).machine.tree.actors
        = some ⟨1, some 130⟩ ∧
      MemTree.find 7 (Mem.Send TokenAmount.std (MemTree.tree MemTree.rejectingCode)
        Mem.hundred 0 1 ⟨7, 7, "absent", some 30⟩).machine.tree.actors
        ≠ some ⟨1, some (100 - 30)⟩) ∧
    ((Mem.Send TokenAmount.std (MemTree.tree MemTree.rejectingCode) Mem.hundred 0 0
        ⟨7, 8, "absent", some 30⟩).err = some (GoError.revert "missing export: absent") ∧
      MemTree.find 7 (Mem.Send TokenAmount.std (MemTree.tree MemTree.rejectingCode)
        Mem.hundred 0 0 ⟨7, 8, "absent", some 30⟩).machine.tree.actors
        = some ⟨1, some 100⟩ ∧
      MemTree.find 8 (Mem.Send TokenAmount.std (MemTree.tree MemTree.rejectingCode)
        Mem.hundred 0 0 ⟨7, 8, "absent", some 30⟩).machine.tree.actors
        = some ⟨1, some 100⟩ ∧
      MemTree.find 7 (Mem.Send TokenAmount.std (MemTree.tree MemTree.rejectingCode)
        Mem.hundred 0 0 ⟨7, 8, "absent", some 30⟩).machine.tree.actors
        ≠ some ⟨1, some (100 - 30)⟩ ∧
      MemTree.find 8 (Mem.Send TokenAmount.std (MemTree.tree MemTree.rejectingCode)
        Mem.hundred 0 0 ⟨7, 8, "absent", some 30⟩).machine.tree.actors
        ≠ some ⟨1, some (100 + 30)⟩) := by
  decide

/-- C16 (the transfer is committed before the export is validated, amended):
for a message with `msg.From` different from `msg.To`, a valid non-nil value
and a non-empty method that the target does not export, for `from` and `to` two
different records, when both writes and the code resolution succeed, `Send`
returns the missing-export Revert error with exit code 1 and yet, on a tree
that stores what is written to it, the tree afterwards holds at `msg.From` the
sender's record with the balance reduced by the value and at `msg.To` the
receiver's record with the balance increased by the value. -/
theorem Send_ptr_commit_before_export {σ : Type} (A : Arith) (hA : A.Sound) (T : Tree σ)
    (hT : T.Lawful) (m : Mem.Machine σ) (fromActor toActor : Mem.Ptr) (msg : Message)
    (st₁ st₂ : σ) (exe : Executable σ) (v : Int)
    (hptr : fromActor ≠ toActor) (haddr : msg.From ≠ msg.To)
    (hv : msg.Value = some v)
    (h0 : 0 ≤ v) (h1 : v ≤ TokenAmount.toInt (m.actors fromActor).Balance)
    (hs1 : T.SetActor m.tree msg.From
      { m.actors fromActor with
        Balance := some (TokenAmount.toInt (m.actors fromActor).Balance - v) } = (none, st₁))
    (hs2 : T.SetActor st₁ msg.To
      { m.actors toActor with
        Balance := some (TokenAmount.toInt (m.actors toActor).Balance + v) } = (none, st₂))
    (hm : msg.Method ≠ "")
    (hc : T.GetBuiltinActorCode st₂ (m.actors toActor).Code = Except.ok exe)
    (hx : msg.Method ∉ exe.Exports) :
    (Mem.Send A T m fromActor toActor msg).ret = none ∧
    (Mem.Send A T m fromActor toActor msg).exitCode = 1 ∧
    (Mem.Send A T m fromActor toActor msg).err
      = some (GoError.revert ("missing export: " ++ msg.Method)) ∧
    errors.ShouldRevert (GoError.revert ("missing export: " ++ msg.Method)) = true ∧
    T.GetActor (Mem.Send A T m fromActor toActor msg).machine.tree msg.From =
      Except.ok { m.actors fromActor with
        Balance := some (TokenAmount.toInt (m.actors fromActor).Balance - v) } ∧
    T.GetActor (Mem.Send A T m fromActor toActor msg).machine.tree msg.To =
      Except.ok { m.actors toActor with
        Balance := some (TokenAmount.toInt (m.actors toActor).Balance + v) } := by
  obtain ⟨he, hf, ht, htree⟩ :=
    transferStep_ptr_valid A hA m fromActor toActor msg v hptr hv h0 h1
  have hS : Mem.Send A T m fromActor toActor msg = _ :=
    send_ptr_of_missing_export T { transfer := Mem.transfer A } m fromActor toActor msg st₁ st₂
      exe he (by rw [htree, hf]; exact hs1) (by rw [ht]; exact hs2) hm
      (by rw [ht]; exact hc) hx
  rw [hS]
  refine ⟨rfl, rfl, rfl, rfl, ?_, ?_⟩
  · show T.GetActor st₂ msg.From = _
    rw [hT.get_set_other st₁ st₂ msg.To msg.From _ hs2 haddr]
    exact hT.get_set_same m.tree st₁ msg.From _ hs1
  · exact hT.get_set_same st₁ st₂ msg.To _ hs2

/-- Witness of the amended C16: 30 goes from address 7 to address 8 with the
method `"absent"`; the missing-export error is returned and the tree holds 70
and 30. -/
theorem Send_ptr_commit_before_export_witness :
    (Mem.Send TokenAmount.std (MemTree.tree MemTree.rejectingCode) Mem.pair 0 1
      ⟨7, 8, "absent", some 30⟩).err = some (GoError.revert "missing export: absent") ∧
    (MemTree.tree MemTree.rejectingCode).GetActor
      (Mem.Send TokenAmount.std (MemTree.tree MemTree.rejectingCode) Mem.pair 0 1
        ⟨7, 8, "absent", some 30⟩).machine.tree 7 = Except.ok ⟨1, some 70⟩ ∧
    (MemTree.tree MemTree.rejectingCode).GetActor
      (Mem.Send TokenAmount.std (MemTree.tree MemTree.rejectingCode) Mem.pair 0 1
        ⟨7, 8, "absent", some 30⟩).machine.tree 8 = Except.ok ⟨2, some 30⟩ :=
  have h := Send_ptr_commit_before_export TokenAmount.std TokenAmount.std_sound
    (MemTree.tree MemTree.rejectingCode) (MemTree.tree_lawful _) Mem.pair 0 1
    ⟨7, 8, "absent", some 30⟩ ⟨[(7, ⟨1, some 70⟩)], []⟩
    ⟨[(7, ⟨1, some 70⟩), (8, ⟨2, some 30⟩)], []⟩
    { Exports := ["reject"], MakeTypedExport := fun _ => MemTree.rejectingMethod } 30
    (by decide) (by decide) rfl (by decide) (by decide) rfl rfl (by decide) rfl (by decide)
  ⟨h.2.2.1, h.2.2.2.2.1, h.2.2.2.2.2⟩

/-! ## Theorems: the embedding over records is the embedding over two different pointers -/

/-- Over pointers: the transfer step fails. -/
theorem send_ptr_of_transfer_error {σ : Type} (T : Tree σ) (deps : Mem.sendDeps σ)
    (m : Mem.Machine σ) (fromActor toActor : Mem.Ptr) (msg : Message) (e : GoError)
    (h : (Mem.transferStep deps m fromActor toActor msg).err = some e) :
    Mem.send T deps m fromActor toActor msg =
      { ret := none, exitCode := 1, err := some e,
        machine := (Mem.transferStep deps m fromActor toActor msg).machine,
        calls := Mem.transferLog fromActor toActor msg } := by
  simp only [Mem.send, h]

/-- Over pointers: the write of the sender fails. -/
theorem send_ptr_of_set_from_error {σ : Type} (T : Tree σ) (deps : Mem.sendDeps σ)
    (m : Mem.Machine σ) (fromActor toActor : Mem.Ptr) (msg : Message) (st₁ : σ) (e : GoError)
    (htr : (Mem.transferStep deps m fromActor toActor msg).err = none)
    (h1 : T.SetActor (Mem.transferStep deps m fromActor toActor msg).machine.tree msg.From
      ((Mem.transferStep deps m fromActor toActor msg).machine.actors fromActor)
        = (some e, st₁)) :
    Mem.send T deps m fromActor toActor msg =
      { ret := none, exitCode := 1,
        err := some (errors.FaultErrorWrap e "could not set from actor after send"),
        machine := { (Mem.transferStep deps m fromActor toActor msg).machine with tree := st₁ },
        calls := Mem.transferLog fromActor toActor msg ++
          [Mem.Call.SetActor msg.From
            ((Mem.transferStep deps m fromActor toActor msg).machine.actors fromActor)] } := by
  simp only [Mem.send, htr, h1]

/-- Over pointers: the write of the sender succeeds and the write of the
receiver fails. -/
theorem send_ptr_of_set_to_error {σ : Type} (T : Tree σ) (deps : Mem.sendDeps σ)
    (m : Mem.Machine σ) (fromActor toActor : Mem.Ptr) (msg : Message) (st₁ st₂ : σ)
    (e : GoError)
    (htr : (Mem.transferStep deps m fromActor toActor msg).err = none)
    (h1 : T.SetActor (Mem.transferStep deps m fromActor toActor msg).machine.tree msg.From
      ((Mem.transferStep deps m fromActor toActor msg).machine.actors fromActor) = (none, st₁))
    (h2 : T.SetActor st₁ msg.To
      ((Mem.transferStep deps m fromActor toActor msg).machine.actors toActor)
        = (some e, st₂)) :
    Mem.send T deps m fromActor toActor msg =
      { ret := none, exitCode := 1,
        err := some (errors.FaultErrorWrap e "could not set to actor after send"),
        machine := { (Mem.transferStep deps m fromActor toActor msg).machine with tree := st₂ },
        calls := Mem.transferLog fromActor toActor msg ++
          [Mem.Call.SetActor msg.From
            ((Mem.transferStep deps m fromActor toActor msg).machine.actors fromActor)] ++
          [Mem.Call.SetActor msg.To
            ((Mem.transferStep deps m fromActor toActor msg).machine.actors toActor)] } := by
  simp only [Mem.send, htr, h1, h2]

/-- Over pointers: both writes succeed, the method is not empty and the code of
the receiver does not resolve. -/
theorem send_ptr_of_code_error {σ : Type} (T : Tree σ) (deps : Mem.sendDeps σ)
    (m : Mem.Machine σ) (fromActor toActor : Mem.Ptr) (msg : Message) (st₁ st₂ : σ)
    (e : GoError)
    (htr : (Mem.transferStep deps m fromActor toActor msg).err = none)
    (h1 : T.SetActor (Mem.transferStep deps m fromActor toActor msg).machine.tree msg.From
      ((Mem.transferStep deps m fromActor toActor msg).machine.actors fromActor) = (none, st₁))
    (h2 : T.SetActor st₁ msg.To
      ((Mem.transferStep deps m fromActor toActor msg).machine.actors toActor) = (none, st₂))
    (hm : msg.Method ≠ "")
    (hc : T.GetBuiltinActorCode st₂
      ((Mem.transferStep deps m fromActor toActor msg).machine.actors toActor).Code
        = Except.error e) :
    Mem.send T deps m fromActor toActor msg =
      { ret := none, exitCode := 1,
        err := some (errors.FaultErrorWrap e "unable to load code for To actor"),
        machine := { (Mem.transferStep deps m fromActor toActor msg).machine with tree := st₂ },
        calls := Mem.transferLog fromActor toActor msg ++
          [Mem.Call.SetActor msg.From
            ((Mem.transferStep deps m fromActor toActor msg).machine.actors fromActor)] ++
          [Mem.Call.SetActor msg.To
            ((Mem.transferStep deps m fromActor toActor msg).machine.actors toActor)] ++
          [Mem.Call.GetBuiltinActorCode
            ((Mem.transferStep deps m fromActor toActor msg).machine.actors toActor).Code] } := by
  simp only [Mem.send, htr, h1, h2, hm, hc, if_false]

/-- Over pointers: the code resolves and exports the method, which is
dispatched. -/
theorem send_ptr_of_dispatch {σ : Type} (T : Tree σ) (deps : Mem.sendDeps σ)
    (m : Mem.Machine σ) (fromActor toActor : Mem.Ptr) (msg : Message) (st₁ st₂ : σ)
    (exe : Executable σ) (out : Outcome σ)
    (htr : (Mem.transferStep deps m fromActor toActor msg).err = none)
    (h1 : T.SetActor (Mem.transferStep deps m fromActor toActor msg).machine.tree msg.From
      ((Mem.transferStep deps m fromActor toActor msg).machine.actors fromActor) = (none, st₁))
    (h2 : T.SetActor st₁ msg.To
      ((Mem.transferStep deps m fromActor toActor msg).machine.actors toActor) = (none, st₂))
    (hm : msg.Method ≠ "")
    (hc : T.GetBuiltinActorCode st₂
      ((Mem.transferStep deps m fromActor toActor msg).machine.actors toActor).Code
        = Except.ok exe)
    (hx : msg.Method ∈ exe.Exports)
    (hout : out = exe.MakeTypedExport msg.Method
      { fromActor := (Mem.transferStep deps m fromActor toActor msg).machine.actors fromActor,
        toActor := (Mem.transferStep deps m fromActor toActor msg).machine.actors toActor,
        message := { msg with Value := (Mem.transferStep deps m fromActor toActor msg).value },
        state := st₂ }) :
    Mem.send T deps m fromActor toActor msg =
      { ret := out.ret, exitCode := out.exitCode, err := out.err,
        machine :=
          (({ (Mem.transferStep deps m fromActor toActor msg).machine with
              tree := out.state }).setActor fromActor out.fromActor).setActor toActor
            out.toActor,
        calls := Mem.transferLog fromActor toActor msg ++
          [Mem.Call.SetActor msg.From
            ((Mem.transferStep deps m fromActor toActor msg).machine.actors fromActor)] ++
          [Mem.Call.SetActor msg.To
            ((Mem.transferStep deps m fromActor toActor msg).machine.actors toActor)] ++
          [Mem.Call.GetBuiltinActorCode
            ((Mem.transferStep deps m fromActor toActor msg).machine.actors toActor).Code] ++
          [Mem.Call.Dispatch msg.Method] } := by
  subst hout
  simp only [Mem.send, htr, h1, h2, hm, hc, hx, if_false, not_true_eq_false]

/-- For two different pointers, `transfer` over pointers with the standard
arithmetic does to the two records behind them what `transfer` over records
does, and touches nothing else. -/
theorem transfer_ptr_refines {σ : Type} (m : Mem.Machine σ) (fromActor toActor : Mem.Ptr)
    (value : TokenAmount) (hne : fromActor ≠ toActor) :
    (Mem.transfer TokenAmount.std m fromActor toActor value).err
      = (transfer (m.actors fromActor) (m.actors toActor) value).err ∧
    (Mem.transfer TokenAmount.std m fromActor toActor value).machine.actors fromActor
      = (transfer (m.actors fromActor) (m.actors toActor) value).fromActor ∧
    (Mem.transfer TokenAmount.std m fromActor toActor value).machine.actors toActor
      = (transfer (m.actors fromActor) (m.actors toActor) value).toActor ∧
    (∀ q : Mem.Ptr, q ≠ fromActor → q ≠ toActor →
      (Mem.transfer TokenAmount.std m fromActor toActor value).machine.actors q
        = m.actors q) ∧
    (Mem.transfer TokenAmount.std m fromActor toActor value).machine.tree = m.tree ∧
    (Mem.transfer TokenAmount.std m fromActor toActor value).value = value := by
  by_cases hneg : TokenAmount.toInt value < 0
  · rw [transfer_ptr_of_negative _ m fromActor toActor value hneg,
      transfer_of_negative _ _ value hneg]
    exact ⟨rfl, rfl, rfl, fun _ _ _ => rfl, rfl, rfl⟩
  · by_cases hlt : TokenAmount.toInt (m.actors fromActor).Balance < TokenAmount.toInt value
    · rw [transfer_ptr_of_insufficient _ m fromActor toActor value (not_lt.mp hneg) hlt,
        transfer_of_insufficient _ _ value (not_lt.mp hneg) hlt]
      exact ⟨rfl, rfl, rfl, fun _ _ _ => rfl, rfl, rfl⟩
    · obtain ⟨he, hf, ht, hq⟩ := transfer_ptr_distinct TokenAmount.std TokenAmount.std_sound m
        fromActor toActor value hne (not_lt.mp hneg) (not_lt.mp hlt)
      rw [he, hf, ht, transfer_of_valid _ _ value (not_lt.mp hneg) (not_lt.mp hlt)]
      refine ⟨rfl, rfl, rfl, hq, transfer_ptr_tree _ m fromActor toActor value, ?_⟩
      unfold Mem.transfer
      split_ifs <;> rfl

/-- For two different pointers, the transfer step of `Send` over pointers does
to the two records what the transfer step over records does. -/
theorem transferStep_ptr_refines {σ : Type} (m : Mem.Machine σ) (fromActor toActor : Mem.Ptr)
    (msg : Message) (hne : fromActor ≠ toActor) :
    (Mem.transferStep { transfer := Mem.transfer TokenAmount.std } m fromActor toActor msg).err
      = (transferStep { transfer := transfer } (m.actors fromActor) (m.actors toActor)
          msg).err ∧
    (Mem.transferStep { transfer := Mem.transfer TokenAmount.std } m fromActor toActor
        msg).machine.actors fromActor
      = (transferStep { transfer := transfer } (m.actors fromActor) (m.actors toActor)
          msg).fromActor ∧
    (Mem.transferStep { transfer := Mem.transfer TokenAmount.std } m fromActor toActor
        msg).machine.actors toActor
      = (transferStep { transfer := transfer } (m.actors fromActor) (m.actors toActor)
          msg).toActor ∧
    (∀ q : Mem.Ptr, q ≠ fromActor → q ≠ toActor →
      (Mem.transferStep { transfer := Mem.transfer TokenAmount.std } m fromActor toActor
        msg).machine.actors q = m.actors q) ∧
    (Mem.transferStep { transfer := Mem.transfer TokenAmount.std } m fromActor toActor
        msg).machine.tree = m.tree ∧
    (Mem.transferStep { transfer := Mem.transfer TokenAmount.std } m fromActor toActor
        msg).value = msg.Value := by
  by_cases hv : msg.Value = none
  · rw [transferStep_nil _ _ _ _ hv]
    simp [Mem.transferStep, hv]
  · rw [transferStep_some _ _ _ _ hv, transferStep_ptr_some _ _ _ _ _ hv]
    exact transfer_ptr_refines m fromActor toActor msg.Value hne

/-- The log of the transfer step over records stands for the log of the
transfer step over pointers. -/
theorem transferLog_ptr_refines (m : Mem.Ptr → Actor) (fromActor toActor : Mem.Ptr)
    (msg : Message) :
    (transferLog (m fromActor) (m toActor) msg).map (Mem.Call.ofCall fromActor toActor)
      = Mem.transferLog fromActor toActor msg := by
  unfold transferLog Mem.transferLog
  split_ifs <;> rfl

/-- The embedding over records is the embedding over pointers at two
different pointers: `Send` over pointers returns what `Send` over the two
records behind them returns, leaves the tree and the two records as it does,
makes the same calls, and leaves every other record as it was. -/
theorem Send_ptr_refines {σ : Type} (T : Tree σ) (m : Mem.Machine σ)
    (fromActor toActor : Mem.Ptr) (msg : Message) (hne : fromActor ≠ toActor) :
    (Mem.Send TokenAmount.std T m fromActor toActor msg).ret
      = (Send T (m.actors fromActor) (m.actors toActor) msg m.tree).ret ∧
    (Mem.Send TokenAmount.std T m fromActor toActor msg).exitCode
      = (Send T (m.actors fromActor) (m.actors toActor) msg m.tree).exitCode ∧
    (Mem.Send TokenAmount.std T m fromActor toActor msg).err
      = (Send T (m.actors fromActor) (m.actors toActor) msg m.tree).err ∧
    (Mem.Send TokenAmount.std T m fromActor toActor msg).machine.tree
      = (Send T (m.actors fromActor) (m.actors toActor) msg m.tree).state ∧
    (Mem.Send TokenAmount.std T m fromActor toActor msg).machine.actors fromActor
      = (Send T (m.actors fromActor) (m.actors toActor) msg m.tree).fromActor ∧
    (Mem.Send TokenAmount.std T m fromActor toActor msg).machine.actors toActor
      = (Send T (m.actors fromActor) (m.actors toActor) msg m.tree).toActor ∧
    (∀ q : Mem.Ptr, q ≠ fromActor → q ≠ toActor →
      (Mem.Send TokenAmount.std T m fromActor toActor msg).machine.actors q = m.actors q) ∧
    (Mem.Send TokenAmount.std T m fromActor toActor msg).calls
      = (Send T (m.actors fromActor) (m.actors toActor) msg m.tree).calls.map
          (Mem.Call.ofCall fromActor toActor) := by
  obtain ⟨fe, ff, ft, fq, ftree, fv⟩ := transferStep_ptr_refines m fromActor toActor msg hne
  have flog := transferLog_ptr_refines m.actors fromActor toActor msg
  have hne' : toActor ≠ fromActor := Ne.symm hne
  unfold Send
  apply send_cases T { transfer := transfer } (m.actors fromActor) (m.actors toActor) msg m.tree
    (fun r =>
      (Mem.Send TokenAmount.std T m fromActor toActor msg).ret = r.ret ∧
      (Mem.Send TokenAmount.std T m fromActor toActor msg).exitCode = r.exitCode ∧
      (Mem.Send TokenAmount.std T m fromActor toActor msg).err = r.err ∧
      (Mem.Send TokenAmount.std T m fromActor toActor msg).machine.tree = r.state ∧
      (Mem.Send TokenAmount.std T m fromActor toActor msg).machine.actors fromActor
        = r.fromActor ∧
      (Mem.Send TokenAmount.std T m fromActor toActor msg).machine.actors toActor
        = r.toActor ∧
      (∀ q : Mem.Ptr, q ≠ fromActor → q ≠ toActor →
        (Mem.Send TokenAmount.std T m fromActor toActor msg).machine.actors q = m.actors q) ∧
      (Mem.Send TokenAmount.std T m fromActor toActor msg).calls
        = r.calls.map (Mem.Call.ofCall fromActor toActor))
  · intro e he
    have hS : Mem.Send TokenAmount.std T m fromActor toActor msg = _ :=
      send_ptr_of_transfer_error T _ m fromActor toActor msg e (by rw [fe]; exact he)
    rw [hS]
    exact ⟨rfl, rfl, rfl, ftree, ff, ft, fq, flog.symm⟩
  · intro e st₁ he h1
    have hS : Mem.Send TokenAmount.std T m fromActor toActor msg = _ :=
      send_ptr_of_set_from_error T _ m fromActor toActor msg st₁ e (by rw [fe]; exact he)
        (by rw [ftree, ff]; exact h1)
    rw [hS]
    refine ⟨rfl, rfl, rfl, rfl, ff, ft, fq, ?_⟩
    simp [flog, ff, Mem.Call.ofCall]
  · intro e st₁ st₂ he h1 h2
    have hS : Mem.Send TokenAmount.std T m fromActor toActor msg = _ :=
      send_ptr_of_set_to_error T _ m fromActor toActor msg st₁ st₂ e (by rw [fe]; exact he)
        (by rw [ftree, ff]; exact h1) (by rw [ft]; exact h2)
    rw [hS]
    refine ⟨rfl, rfl, rfl, rfl, ff, ft, fq, ?_⟩
    simp [flog, ff, ft, Mem.Call.ofCall]
  · intro st₁ st₂ he h1 h2 hm
    have hS : Mem.Send TokenAmount.std T m fromActor toActor msg = _ :=
      send_ptr_of_empty_method T _ m fromActor toActor msg st₁ st₂ (by rw [fe]; exact he)
        (by rw [ftree, ff]; exact h1) (by rw [ft]; exact h2) hm
    rw [hS]
    refine ⟨rfl, rfl, rfl, rfl, ff, ft, fq, ?_⟩
    simp [flog, ff, ft, Mem.Call.ofCall]
  · intro e st₁ st₂ he h1 h2 hm hc
    have hS : Mem.Send TokenAmount.std T m fromActor toActor msg = _ :=
      send_ptr_of_code_error T _ m fromActor toActor msg st₁ st₂ e (by rw [fe]; exact he)
        (by rw [ftree, ff]; exact h1) (by rw [ft]; exact h2) hm (by rw [ft]; exact hc)
    rw [hS]
    refine ⟨rfl, rfl, rfl, rfl, ff, ft, fq, ?_⟩
    simp [flog, ff, ft, Mem.Call.ofCall]
  · intro exe st₁ st₂ he h1 h2 hm hc hx
    have hS : Mem.Send TokenAmount.std T m fromActor toActor msg = _ :=
      send_ptr_of_missing_export T _ m fromActor toActor msg st₁ st₂ exe
        (by rw [fe]; exact he) (by rw [ftree, ff]; exact h1) (by rw [ft]; exact h2) hm
        (by rw [ft]; exact hc) hx
    rw [hS]
    refine ⟨rfl, rfl, rfl, rfl, ff, ft, fq, ?_⟩
    simp [flog, ff, ft, Mem.Call.ofCall]
  · intro exe st₁ st₂ out he h1 h2 hm hc hx hout
    have hmsg : ({ msg with
        Value := (Mem.transferStep { transfer := Mem.transfer TokenAmount.std } m fromActor
          toActor msg).value } : Message) = msg := by
      rw [fv]
    have hS : Mem.Send TokenAmount.std T m fromActor toActor msg = _ :=
      send_ptr_of_dispatch T _ m fromActor toActor msg st₁ st₂ exe out
        (by rw [fe]; exact he) (by rw [ftree, ff]; exact h1) (by rw [ft]; exact h2) hm
        (by rw [ft]; exact hc) hx (by rw [ff, ft, hmsg]; exact hout)
    rw [hS]
    refine ⟨rfl, rfl, rfl, rfl, ?_, ?_, ?_, ?_⟩
    · simp [Mem.Machine.setActor, hne]
    · simp [Mem.Machine.setActor]
    · intro q hq1 hq2
      simp [Mem.Machine.setActor, hq1, hq2, fq q hq1 hq2]
    · simp [flog, ff, ft, Mem.Call.ofCall]

end Filecoin
